import Mathlib

/-!
Verification of the DevTeam core: a shallow embedding of the canonical
message/response model, the tool contract, the provider adapters
(Anthropic-style, OpenAI-style, Gemini-style), the unified client facade,
and the agent turn loop, translated from `src/core/devteam`.

Python dynamic values that flow through the code (tool arguments, tool
results, enum/default values of tool parameters) are modelled by a small
value type `PyVal`; Python truthiness of the optionals the code tests with
`if x:` is modelled explicitly.  Machine floats (temperature, pricing) are
modelled by `ℚ`; no claim depends on float rounding.
-/

namespace DevTeam

/-- A Python value as used by this code base: tool arguments, tool result
data, and enum/default entries are strings, ints, bools or `None`. -/
inductive PyVal where
  | vstr (s : String)
  | vint (n : Int)
  | vbool (b : Bool)
  | vnone
deriving DecidableEq, Repr

/-- Python truthiness of a `PyVal` (`bool(x)`). -/
def PyVal.truthy : PyVal → Bool
  | .vstr s => !s.isEmpty
  | .vint n => n ≠ 0
  | .vbool b => b
  | .vnone => false

/-- Python `str(x)` for the values of `PyVal`. -/
def PyVal.pyStr : PyVal → String
  | .vstr s => s
  | .vint n => toString n
  | .vbool true => "True"
  | .vbool false => "False"
  | .vnone => "None"

/-- Truthiness of a Python `Optional[str]` (`if x:`): `None` and the empty
string are falsy. -/
def optStrTruthy : Option String → Bool
  | none => false
  | some s => !s.isEmpty

/-- Truthiness of a Python `Optional[list]` (`if xs:`): `None` and the empty
list are falsy. -/
def optListTruthy {α : Type} : Option (List α) → Bool
  | none => false
  | some xs => !xs.isEmpty

/-- Python `bool(x)` for `Optional[str]`, as used for
`bool(result.error)` in the turn loop. -/
def pyBoolOptStr (o : Option String) : Bool := optStrTruthy o

/-! ## Canonical message model (`llm/models.py`) -/

/-- Modelled from the spec: the originating-agent tag attached to every
canonical message.  `devteam/agents/types.py` is not under `src/`; the spec
and `llm_models.py` name the four agent roles manager, architect,
developer and qa. -/
inductive AgentType where
  | manager | architect | developer | qa
deriving DecidableEq, Repr

/-- `MessageRole = Literal["user", "assistant"]`. -/
inductive MessageRole where
  | user | assistant
deriving DecidableEq, Repr

/-- `StopReason(StrEnum)` — the closed stop-reason vocabulary. -/
inductive StopReason where
  | end_turn | max_tokens | stop_sequence | tool_use
  | content_filter | recitation | error | no_candidates | unknown
deriving DecidableEq, Repr

/-- `ThinkingData(TypedDict)`. -/
structure ThinkingData where
  thinking : String
  metadata : String
  encrypted_content : Option String
deriving DecidableEq, Repr

/-- `ToolUseData(TypedDict)`: name, provider-issued correlation id, and a
flat argument mapping. -/
structure ToolUseData where
  tool_name : String
  tool_use_id : String
  arguments : List (String × PyVal)
deriving DecidableEq, Repr

/-- `ToolUseResultData(TypedDict)`. -/
structure ToolUseResultData where
  tool_name : String
  tool_use_id : String
  result : String
  error : Bool
deriving DecidableEq, Repr

/-- `Message = Union[TextMessage, ToolUseMessage, ToolUseResultMessage]`.
TypedDict keys that a construction site omits (Gemini builds text messages
without `thinking_data`/`agent`) are modelled as `none`. -/
inductive Message where
  | text (role : MessageRole) (text : String)
      (thinking_data : Option ThinkingData) (agent : Option AgentType)
  | toolUse (role : MessageRole) (call : ToolUseData)
      (thinking_data : Option ThinkingData) (agent : Option AgentType)
  | toolUseResult (role : MessageRole) (call_result : ToolUseResultData)
      (agent : Option AgentType)
deriving DecidableEq, Repr

/-- `Usage(BaseModel)`: token counts plus the cost snapshotted at response
time. -/
structure Usage where
  model : String
  input_tokens : Option Nat
  output_tokens : Option Nat
  cost : Option ℚ
deriving DecidableEq, Repr

/-- `LLMResponse(BaseModel)`. -/
structure LLMResponse where
  content : List Message
  stop_reason : Option StopReason := none
  usage : Option Usage := none
deriving DecidableEq, Repr

/-! ## Tool contract (`tools/base.py`) -/

/-- `ToolParameterType(StrEnum)`. -/
inductive ToolParameterType where
  | string | integer | number | boolean | array | object
deriving DecidableEq, Repr

/-- The string value of a `ToolParameterType` member (arms listed here in
an order unrelated to the declaration; the function is total either
way). -/
def ToolParameterType.value : ToolParameterType → String
  | .object => "object"
  | .array => "array"
  | .boolean => "boolean"
  | .number => "number"
  | .integer => "integer"
  | .string => "string"

/-- `ToolParameter` dataclass. -/
structure ToolParameter where
  name : String
  description : String
  type : ToolParameterType
  required : Bool := true
  enum : Option (List PyVal) := none
  default : Option PyVal := none
deriving DecidableEq, Repr

/-- `ToolSchema` dataclass. -/
structure ToolSchema where
  name : String
  description : String
  parameters : List ToolParameter
deriving DecidableEq, Repr

/-- `ToolResult` dataclass. -/
structure ToolResult where
  success : Bool
  data : PyVal
  error : Option String := none
  duration_ms : Nat := 0
deriving DecidableEq, Repr

/-- A concrete tool as the turn loop sees it: its schema name and its
(pure) `execute` behaviour on an argument mapping. -/
structure ToolSim where
  name : String
  run : List (String × PyVal) → ToolResult

/-! ## Model capability registry (`llm/llm_models.py`) -/

/-- `ModelProvider(StrEnum)`. -/
inductive ModelProvider where
  | anthropic | openai | gemini
deriving DecidableEq, Repr

/-- Python `str.title()` of the provider's string value, as used in the
validation error message. -/
def ModelProvider.title : ModelProvider → String
  | .anthropic => "Anthropic"
  | .openai => "Openai"
  | .gemini => "Gemini"

/-- `ModelPricing(NamedTuple)`: prices per 1M tokens. -/
structure ModelPricing where
  input_price : ℚ
  output_price : ℚ
deriving DecidableEq, Repr

/-- `LLMModel` dataclass. -/
structure LLMModel where
  name : String
  provider : ModelProvider
  snapshots : List String
  pricing : ModelPricing
  context_window_size : Nat
  has_reasoning : Bool := false
deriving DecidableEq, Repr

/-- The `MODELS` table, in dict insertion order. -/
def MODELS : List LLMModel :=
  [ { name := "claude-haiku-4-5", provider := .anthropic,
      snapshots := ["claude-haiku-4-5-20251001"],
      pricing := ⟨1, 5⟩, context_window_size := 200000 },
    { name := "claude-sonnet-4-5", provider := .anthropic,
      snapshots := ["claude-sonnet-4-5-20250929"],
      pricing := ⟨3, 15⟩, context_window_size := 200000,
      has_reasoning := true },
    { name := "claude-opus-4-5", provider := .anthropic,
      snapshots := ["claude-opus-4-5-20251101"],
      pricing := ⟨5, 25⟩, context_window_size := 200000,
      has_reasoning := true },
    { name := "gpt-5-mini", provider := .openai,
      snapshots := ["gpt-5-mini-2025-08-07"],
      pricing := ⟨1/4, 2⟩, context_window_size := 400000,
      has_reasoning := true },
    { name := "gpt-5", provider := .openai,
      snapshots := ["gpt-5-2025-08-07"],
      pricing := ⟨5/4, 10⟩, context_window_size := 400000,
      has_reasoning := true },
    { name := "gpt-5.1", provider := .openai,
      snapshots := ["gpt-5.1-2025-11-13"],
      pricing := ⟨5/4, 10⟩, context_window_size := 400000,
      has_reasoning := true },
    { name := "gpt-5-pro", provider := .openai,
      snapshots := ["gpt-5-pro-2025-10-06"],
      pricing := ⟨15, 120⟩, context_window_size := 400000,
      has_reasoning := true },
    { name := "gemini-2.5-flash-lite", provider := .gemini,
      snapshots := [],
      pricing := ⟨1/10, 2/5⟩, context_window_size := 1048576 },
    { name := "gemini-2.5-flash", provider := .gemini,
      snapshots := [],
      pricing := ⟨3/10, 5/2⟩, context_window_size := 1048576 },
    { name := "gemini-2.5-pro", provider := .gemini,
      snapshots := [],
      pricing := ⟨5/4, 10⟩, context_window_size := 1048576 } ]

/-- `get_model_by_name_or_snapshot`: first model whose name matches or
whose snapshot list contains the given identifier. -/
def get_model_by_name_or_snapshot (name_or_version : String) : Option LLMModel :=
  MODELS.find? (fun m =>
    m.name == name_or_version || m.snapshots.contains name_or_version)

/-- `validate_model`. -/
def validate_model (provider : ModelProvider) (model : String) : Bool :=
  match get_model_by_name_or_snapshot model with
  | some m => m.provider == provider
  | none => false

/-- `is_reasoning_model`. -/
def is_reasoning_model (model : String) : Bool :=
  match get_model_by_name_or_snapshot model with
  | some m => m.has_reasoning
  | none => false

/-- `calculate_usage_cost`: `None` for an unknown model, else the summed
per-million-token cost. -/
def calculate_usage_cost (model : String) (input_tokens output_tokens : Nat) :
    Option ℚ :=
  match get_model_by_name_or_snapshot model with
  | none => none
  | some m =>
      some ((input_tokens / 1000000 : ℚ) * m.pricing.input_price +
            (output_tokens / 1000000 : ℚ) * m.pricing.output_price)

/-! ## Exponential backoff (`utils/utils.py`) and the retry wrapper
(`llm/base.py`)

A fallible asynchronous call is modelled as a function from the attempt
index to an `Except` result; the index of the next attempt, the current
delay, and the list of delays actually slept are threaded explicitly. -/

/-- One run of the `while current_retry < retries` loop of
`exponential_backoff_retry.decorator.wrapper`, entered with
`remaining = retries - current_retry` iterations still allowed.  Returns
the overall result together with the delays slept (the delay doubles after
each sleep).  When the loop is never entered (`retries = 0`), the
trailing `return await func(...)` after the loop performs one call. -/
def backoffAux {α : Type} (f : Nat → Except String α) :
    Nat → Nat → ℚ → Except String α × List ℚ
  | attempt, 0, _ => (f attempt, [])
  | attempt, remaining + 1, current_delay =>
      match f attempt with
      | .ok a => (.ok a, [])
      | .error e =>
          if remaining = 0 then (.error e, [])
          else
            let rest := backoffAux f (attempt + 1) remaining (current_delay * 2)
            (rest.1, current_delay :: rest.2)

/-- `exponential_backoff_retry(delay, retries)` applied to `f`: result and
the delays slept. -/
def exponential_backoff_retry {α : Type} (delay : ℚ) (retries : Nat)
    (f : Nat → Except String α) : Except String α × List ℚ :=
  backoffAux f 0 retries delay

/-- `BaseLLMClient._call_llm_api_with_retry`: the
`@exponential_backoff_retry(retries=5, delay=1.0)` decorator on it is
commented out ("disabling this for now"), so the wrapper performs exactly
one call of `_call_llm_api` and propagates any failure immediately. -/
def call_llm_api_with_retry {α : Type} (f : Nat → Except String α) :
    Except String α :=
  f 0

/-! ## Client construction (`llm/base.py`, `llm/clients/*.py`,
`llm/__init__.py`)

Python raises `TypeError` when a call supplies fewer positional arguments
than a function's required parameters or more than its total parameters;
the argument counts at each construction call site are taken from the
source and checked explicitly. -/

/-- The Python exceptions that client construction can raise. -/
inductive PyError where
  | typeError (msg : String)
  | attributeError (msg : String)
  | valueError (msg : String)
deriving DecidableEq, Repr

/-- `LLMClientConfig` dataclass. -/
structure LLMClientConfig where
  provider : ModelProvider
  api_key : String
  model : String
  reasoning_enabled : Bool := false
deriving DecidableEq, Repr

/-- The attribute state a client instance holds after a successful
`BaseLLMClient.__init__`. -/
structure ClientState where
  model : String
  api_key : String
  reasoning_enabled : Bool
deriving DecidableEq, Repr

/-- `BaseLLMClient._validate_model(provider, model, reasoning)`, evaluated
with the value the instance attribute `self.reasoning_enabled` has at call
time (`none` = not yet assigned, so reading it raises `AttributeError`).
The body tests `self.reasoning_enabled`, not its `reasoning` parameter. -/
def validate_model_method (self_reasoning_enabled : Option Bool)
    (provider : ModelProvider) (model : String) (_reasoning : Bool) :
    Except PyError (Bool × Option String) :=
  if !(validate_model provider model) then
    .ok (false, some ("Invalid " ++ provider.title ++ " model " ++ model))
  else
    match self_reasoning_enabled with
    | none =>
        .error (.attributeError
          "object has no attribute reasoning_enabled")
    | some re =>
        if re && !(is_reasoning_model model) then
          .ok (false, some ("Model " ++ model ++ " does not support reasoning"))
        else .ok (true, none)

/-- The body of `BaseLLMClient.__init__(self, config)`.  It calls
`_validate_model` before assigning `self.reasoning_enabled`, so the
attribute is still unset there. -/
def base_llm_client_init_body (config : LLMClientConfig) :
    Except PyError ClientState :=
  match validate_model_method none config.provider config.model
      config.reasoning_enabled with
  | .error e => .error e
  | .ok (is_valid, error_message) =>
      if !is_valid && optStrTruthy error_message then
        .error (.valueError (error_message.getD ""))
      else .ok ⟨config.model, config.api_key, config.reasoning_enabled⟩

/-- Positional parameters of `BaseLLMClient.__init__` besides `self`:
exactly one (`config`). -/
def base_init_param_count : Nat := 1

/-- Positional arguments each subclass `__init__` passes to
`super().__init__(<Provider>, model, api_key, reasoning)`: four. -/
def subclass_super_call_arg_count : Nat := 4

/-- `AnthropicClient.__init__(self, model, api_key, reasoning=False)` (the
`OpenAIClient` and `GeminiClient` constructors are word-for-word parallel):
after creating the SDK client it calls
`super().__init__(ModelProvider.X, model, api_key, reasoning)`.  The call
passes four positional arguments where `BaseLLMClient.__init__` accepts
one, so Python raises `TypeError` before the base body runs; were the
arity correct, the base body would receive the four values as a config. -/
def subclass_client_init (provider : ModelProvider)
    (model api_key : String) (reasoning : Bool) : Except PyError ClientState :=
  if subclass_super_call_arg_count = base_init_param_count then
    base_llm_client_init_body
      { provider := provider, api_key := api_key, model := model,
        reasoning_enabled := reasoning }
  else
    .error (.typeError
      "BaseLLMClient.__init__ takes 2 positional arguments but 5 were given")

/-- Positional arguments `create_llm_client` passes to the subclass
constructor: one (the whole `config` object). -/
def factory_call_arg_count : Nat := 1

/-- Required positional parameters of each subclass `__init__` besides
`self`: two (`model`, `api_key`; `reasoning` has a default). -/
def subclass_init_required_param_count : Nat := 2

/-- `create_llm_client(config)` (`llm/__init__.py`): dispatches on the
provider and calls `XClient(config)` — a single positional argument bound
to the subclass parameter `model`, leaving `api_key` missing, so Python
raises `TypeError` at the call.  Were the arity correct, the subclass
constructor body would run. -/
def create_llm_client (config : LLMClientConfig) : Except PyError ClientState :=
  if factory_call_arg_count < subclass_init_required_param_count then
    .error (.typeError
      "__init__ missing 1 required positional argument: api_key")
  else
    subclass_client_init config.provider config.model config.api_key
      config.reasoning_enabled

/-! ## Anthropic-style adapter (`llm/clients/anthropic.py`) -/

/-- One property entry of the `input_schema.properties` dict built by
`AnthropicClient._convert_tool` (also the shape `OpenAIClient._convert_tool`
builds): type, description, and `enum`/`default` only when the source's
truthiness test admitted them. -/
structure JsonSchemaProperty where
  type : ToolParameterType
  description : String
  enum : Option (List PyVal) := none
  default : Option PyVal := none
deriving DecidableEq, Repr

/-- The property dict entry for one `ToolParameter`: `enum` is copied only
when `if param.enum:` is truthy (non-`None`, non-empty), `default` only
when `if param.default:` is truthy. -/
def convert_parameter_property (param : ToolParameter) : JsonSchemaProperty :=
  { type := param.type,
    description := param.description,
    enum := if optListTruthy param.enum then param.enum else none,
    default :=
      if (param.default.map PyVal.truthy).getD false then param.default
      else none }

/-- The `required` list collected by every `_convert_tool`: names of the
parameters whose `required` flag is truthy, in order. -/
def convert_tool_required (params : List ToolParameter) : List String :=
  (params.filter (fun p => p.required)).map (fun p => p.name)

/-- The `properties` dict built by `_convert_tool`, as an association list
in insertion order (a later duplicate name overwrites an earlier one, as
in a Python dict; lookups below use the last binding). -/
def convert_tool_properties (params : List ToolParameter) :
    List (String × JsonSchemaProperty) :=
  params.map (fun p => (p.name, convert_parameter_property p))

/-- Python-dict lookup in an insertion-ordered association list: the last
binding for the key wins. -/
def dictLookup {α : Type} (entries : List (String × α)) (key : String) :
    Option α :=
  (entries.reverse.find? (fun e => e.1 == key)).map (fun e => e.2)

/-- `ToolParam` built by `AnthropicClient._convert_tool`. -/
structure AnthropicToolParam where
  name : String
  description : String
  input_schema_properties : List (String × JsonSchemaProperty)
  input_schema_required : List String
deriving DecidableEq, Repr

/-- `AnthropicClient._convert_tool`. -/
def anthropic_convert_tool (schema : ToolSchema) : AnthropicToolParam :=
  { name := schema.name,
    description := schema.description,
    input_schema_properties := convert_tool_properties schema.parameters,
    input_schema_required := convert_tool_required schema.parameters }

/-- A content block of an Anthropic `MessageParam` built by
`_convert_message`. -/
inductive AnthropicBlockParam where
  | thinking (thinking : String) (signature : String)
  | text (text : String)
  | toolUse (id : String) (name : String) (input : List (String × PyVal))
  | toolResult (tool_use_id : String) (content : String) (is_error : Bool)
deriving DecidableEq, Repr

/-- The `content` of an Anthropic `MessageParam`: either a plain string or
a block list. -/
inductive AnthropicContent where
  | str (s : String)
  | blocks (bs : List AnthropicBlockParam)
deriving DecidableEq, Repr

/-- `MessageParam`. -/
structure AnthropicMessageParam where
  role : MessageRole
  content : AnthropicContent
deriving DecidableEq, Repr

/-- `AnthropicClient._convert_message`. -/
def anthropic_convert_message : Message → AnthropicMessageParam
  | .text role text thinking_data _ =>
      match thinking_data with
      | some td =>
          ⟨role, .blocks [.thinking td.thinking td.metadata, .text text]⟩
      | none => ⟨role, .str text⟩
  | .toolUse role call thinking_data _ =>
      let tub := AnthropicBlockParam.toolUse call.tool_use_id call.tool_name
        call.arguments
      match thinking_data with
      | some td => ⟨role, .blocks [.thinking td.thinking td.metadata, tub]⟩
      | none => ⟨role, .blocks [tub]⟩
  | .toolUseResult role call_result _ =>
      ⟨role, .blocks [.toolResult call_result.tool_use_id call_result.result
        call_result.error]⟩

/-- The `tool_choice` dict `AnthropicClient.complete` always includes. -/
structure AnthropicToolChoice where
  type : String
  disable_parallel_tool_use : Bool
deriving DecidableEq, Repr

/-- The `thinking` config added when reasoning is enabled. -/
structure AnthropicThinkingConfig where
  type : String
  budget_tokens : Nat
deriving DecidableEq, Repr

/-- The `args` dict `AnthropicClient.complete` passes to the network call. -/
structure AnthropicRequest where
  model : String
  max_tokens : Nat
  messages : List AnthropicMessageParam
  temperature : ℚ
  tool_choice : AnthropicToolChoice
  system : Option String := none
  tools : Option (List AnthropicToolParam) := none
  thinking : Option AnthropicThinkingConfig := none
deriving DecidableEq, Repr

/-- Request construction in `AnthropicClient.complete` (lines 39–66):
`system` and `tools` are added only when truthy; when reasoning is
enabled, half of `max_tokens` (integer division) is reserved as the
thinking budget; `tool_choice` always disables parallel tool use. -/
def anthropic_complete_request (model : String) (reasoning_enabled : Bool)
    (messages : List Message) (system_message : Option String)
    (tools : Option (List ToolSchema)) (max_tokens : Nat)
    (temperature : ℚ) : AnthropicRequest :=
  { model := model,
    max_tokens := max_tokens,
    messages := messages.map anthropic_convert_message,
    temperature := temperature,
    tool_choice := ⟨"auto", true⟩,
    system := if optStrTruthy system_message then system_message else none,
    tools :=
      if optListTruthy tools then
        (tools.getD []).map anthropic_convert_tool
      else none,
    thinking :=
      if reasoning_enabled then some ⟨"enabled", max_tokens / 2⟩ else none }

/-- A block of a raw Anthropic response; block types other than
`thinking`/`text`/`tool_use` (e.g. `redacted_thinking`) fall through the
`if`/`elif` chain of `_convert_llm_response` and are ignored. -/
inductive AnthropicResponseBlock where
  | thinking (thinking : String) (signature : String)
  | text (text : String)
  | toolUse (id : String) (name : String) (input : List (String × PyVal))
  | other
deriving DecidableEq, Repr

/-- The `usage` object of a raw Anthropic response. -/
structure AnthropicUsage where
  input_tokens : Nat
  output_tokens : Nat
deriving DecidableEq, Repr

/-- A raw Anthropic `Message` response. -/
structure AnthropicRawMessage where
  content : List AnthropicResponseBlock
  stop_reason : Option String := none
  usage : Option AnthropicUsage := none
deriving DecidableEq, Repr

/-- The block-walking loop of `AnthropicClient._convert_llm_response`:
a `thinking` block is stored and attached to the next `text`/`tool_use`
block, then cleared. -/
def anthropic_convert_blocks :
    List AnthropicResponseBlock → Option ThinkingData → List Message
  | [], _ => []
  | .thinking th sig :: rest, _ =>
      anthropic_convert_blocks rest (some ⟨th, sig, none⟩)
  | .text t :: rest, current_thinking =>
      Message.text .assistant t current_thinking none ::
        anthropic_convert_blocks rest none
  | .toolUse id name input :: rest, current_thinking =>
      Message.toolUse .assistant ⟨name, id, input⟩ current_thinking none ::
        anthropic_convert_blocks rest none
  | .other :: rest, current_thinking =>
      anthropic_convert_blocks rest current_thinking

/-- The `stop_reason_map` of `AnthropicClient._convert_llm_response`. -/
def anthropic_stop_reason_map (s : String) : Option StopReason :=
  if s == "end_turn" then some .end_turn
  else if s == "max_tokens" then some .max_tokens
  else if s == "stop_sequence" then some .stop_sequence
  else if s == "tool_use" then some .tool_use
  else none

/-- The stop-reason computation shared in shape by all three adapters:
`map.get(status, UNKNOWN) if status else None` — a falsy (absent or
empty) vendor status yields `None`, a present unmapped one `UNKNOWN`. -/
def stop_reason_of (table : String → Option StopReason)
    (status : Option String) : Option StopReason :=
  if optStrTruthy status then
    some ((table (status.getD "")).getD .unknown)
  else none

/-- `AnthropicClient._convert_llm_response`. -/
def anthropic_convert_llm_response (model : String)
    (response : AnthropicRawMessage) : LLMResponse :=
  { content := anthropic_convert_blocks response.content none,
    stop_reason := stop_reason_of anthropic_stop_reason_map
      response.stop_reason,
    usage :=
      match response.usage with
      | none => none
      | some u =>
          some { model := model,
                 input_tokens := some u.input_tokens,
                 output_tokens := some u.output_tokens,
                 cost := calculate_usage_cost model u.input_tokens
                   u.output_tokens } }

/-! ## OpenAI-style adapter (`llm/clients/openai.py`)

`json.dumps`/`json.loads` on the flat argument mapping are modelled by a
concrete serializer over `PyVal` (string escaping is not modelled; no
claim depends on it). -/

/-- `json.dumps` of one `PyVal`. -/
def pyValJson : PyVal → String
  | .vstr s => "\"" ++ s ++ "\""
  | .vint n => toString n
  | .vbool true => "true"
  | .vbool false => "false"
  | .vnone => "null"

/-- `json.dumps` of a flat argument mapping. -/
def jsonDumps (args : List (String × PyVal)) : String :=
  "\x7b" ++ String.intercalate ", "
    (args.map (fun a => "\"" ++ a.1 ++ "\": " ++ pyValJson a.2)) ++ "\x7d"

/-- One item of the `input` list `OpenAIClient.complete` builds: an easy
message, a function call, a function-call output, or the reasoning block
the completion loop injects before a message that carries thinking data. -/
inductive OpenAIInputItem where
  | easyMessage (role : MessageRole) (content : String)
  | functionCall (name : String) (call_id : String) (arguments : String)
  | functionCallOutput (call_id : String) (output : String)
  | reasoning (id : String) (encrypted_content : Option String)
      (summary_text : String)
deriving DecidableEq, Repr

/-- `OpenAIClient._convert_message`. -/
def openai_convert_message : Message → OpenAIInputItem
  | .text role text _ _ => .easyMessage role text
  | .toolUse _ call _ _ =>
      .functionCall call.tool_name call.tool_use_id (jsonDumps call.arguments)
  | .toolUseResult _ call_result _ =>
      .functionCallOutput call_result.tool_use_id call_result.result

/-- The thinking data carried by a canonical message, if any. -/
def Message.thinkingData : Message → Option ThinkingData
  | .text _ _ td _ => td
  | .toolUse _ _ td _ => td
  | .toolUseResult _ _ _ => none

/-- The `converted_messages` loop of `OpenAIClient.complete`: a reasoning
block is emitted immediately before each message whose `thinking_data` is
truthy. -/
def openai_convert_messages (messages : List Message) : List OpenAIInputItem :=
  messages.flatMap (fun m =>
    match m.thinkingData with
    | some td =>
        [.reasoning td.metadata td.encrypted_content td.thinking,
         openai_convert_message m]
    | none => [openai_convert_message m])

/-- `FunctionToolParam` built by `OpenAIClient._convert_tool`. -/
structure OpenAIToolParam where
  type : String
  name : String
  description : String
  strict : Bool
  parameters_properties : List (String × JsonSchemaProperty)
  parameters_required : List String
deriving DecidableEq, Repr

/-- `OpenAIClient._convert_tool`: identical property/required collection
to the Anthropic adapter, wrapped in a function descriptor with
`strict = True`. -/
def openai_convert_tool (schema : ToolSchema) : OpenAIToolParam :=
  { type := "function",
    name := schema.name,
    description := schema.description,
    strict := true,
    parameters_properties := convert_tool_properties schema.parameters,
    parameters_required := convert_tool_required schema.parameters }

/-- The `reasoning` config added when reasoning is enabled. -/
structure OpenAIReasoningConfig where
  effort : String
  summary : String
deriving DecidableEq, Repr

/-- The `args` dict `OpenAIClient.complete` passes to the network call. -/
structure OpenAIRequest where
  model : String
  input : List OpenAIInputItem
  max_output_tokens : Nat
  temperature : ℚ
  parallel_tool_calls : Bool
  store : Bool
  instructions : Option String := none
  tools : Option (List OpenAIToolParam) := none
  reasoning : Option OpenAIReasoningConfig := none
  /-- the `include` key of the args dict (`include` is reserved in Lean) -/
  include_fields : Option (List String) := none
deriving DecidableEq, Repr

/-- Request construction in `OpenAIClient.complete` (lines 41–88):
`parallel_tool_calls` is always `False` and `store` always `False`;
`instructions`/`tools` are added only when truthy; reasoning adds a
medium-effort config and requests the encrypted continuation content. -/
def openai_complete_request (model : String) (reasoning_enabled : Bool)
    (messages : List Message) (system_message : Option String)
    (tools : Option (List ToolSchema)) (max_tokens : Nat)
    (temperature : ℚ) : OpenAIRequest :=
  { model := model,
    input := openai_convert_messages messages,
    max_output_tokens := max_tokens,
    temperature := temperature,
    parallel_tool_calls := false,
    store := false,
    instructions := if optStrTruthy system_message then system_message else none,
    tools :=
      if optListTruthy tools then
        (tools.getD []).map openai_convert_tool
      else none,
    reasoning :=
      if reasoning_enabled then some ⟨"medium", "auto"⟩ else none,
    include_fields :=
      if reasoning_enabled then some ["reasoning.encrypted_content"]
      else none }

/-- A block of a raw OpenAI response `output` list.  `functionCall`
arguments arrive as JSON text that the adapter decodes with
`json.loads`; the decoded flat mapping is carried directly. -/
inductive OpenAIOutputBlock where
  | reasoning (id : String) (encrypted_content : Option String)
      (summary_texts : List String)
  | message (output_texts : List String)
  | functionCall (name : String) (call_id : String)
      (arguments : List (String × PyVal))
  | other
deriving DecidableEq, Repr

/-- The `usage` object of a raw OpenAI response. -/
structure OpenAIUsage where
  input_tokens : Nat
  output_tokens : Nat
deriving DecidableEq, Repr

/-- A raw OpenAI `Response`. -/
structure OpenAIRawResponse where
  output : List OpenAIOutputBlock
  status : Option String := none
  usage : Option OpenAIUsage := none
deriving DecidableEq, Repr

/-- The block-walking loop of `OpenAIClient._convert_llm_response`: a
reasoning block with a truthy non-empty summary is stored and attached to
the next text or function-call block, then cleared; each `output_text`
item of a message block yields a text message. -/
def openai_convert_blocks :
    List OpenAIOutputBlock → Option ThinkingData → List Message
  | [], _ => []
  | .reasoning id ec summary_texts :: rest, current_thinking =>
      match summary_texts with
      | [] => openai_convert_blocks rest current_thinking
      | summary_text :: _ =>
          if summary_text.isEmpty then
            openai_convert_blocks rest current_thinking
          else
            openai_convert_blocks rest (some ⟨summary_text, id, ec⟩)
  | .message output_texts :: rest, current_thinking =>
      match output_texts with
      | [] => openai_convert_blocks rest current_thinking
      | t :: ts =>
          Message.text .assistant t current_thinking none ::
            openai_convert_blocks (.message ts :: rest) none
  | .functionCall name call_id arguments :: rest, current_thinking =>
      Message.toolUse .assistant ⟨name, call_id, arguments⟩ current_thinking
          none ::
        openai_convert_blocks rest none
  | .other :: rest, current_thinking =>
      openai_convert_blocks rest current_thinking

/-- The `stop_reason_map` of `OpenAIClient._convert_llm_response`. -/
def openai_stop_reason_map (s : String) : Option StopReason :=
  if s == "completed" then some .end_turn
  else if s == "incomplete" then some .max_tokens
  else if s == "failed" then some .error
  else none

/-- `OpenAIClient._convert_llm_response`. -/
def openai_convert_llm_response (model : String)
    (response : OpenAIRawResponse) : LLMResponse :=
  { content := openai_convert_blocks response.output none,
    stop_reason := stop_reason_of openai_stop_reason_map response.status,
    usage :=
      match response.usage with
      | none => none
      | some u =>
          some { model := model,
                 input_tokens := some u.input_tokens,
                 output_tokens := some u.output_tokens,
                 cost := calculate_usage_cost model u.input_tokens
                   u.output_tokens } }

/-! ## Gemini-style adapter (`llm/clients/gemini.py`) -/

/-- The `google.genai` `Type` enum, whose spelling differs from the
canonical parameter-type enum. -/
inductive GeminiType where
  | STRING | INTEGER | NUMBER | BOOLEAN | ARRAY | OBJECT
deriving DecidableEq, Repr

/-- The inner `_convert_parameter_type` of `GeminiClient._convert_tool`. -/
def gemini_convert_parameter_type : ToolParameterType → GeminiType
  | .string => .STRING
  | .integer => .INTEGER
  | .number => .NUMBER
  | .boolean => .BOOLEAN
  | .array => .ARRAY
  | .object => .OBJECT

/-- One `SchemaDict` property built by `GeminiClient._convert_tool`. -/
structure GeminiSchemaProperty where
  type : GeminiType
  description : String
  enum : Option (List PyVal) := none
  default : Option PyVal := none
deriving DecidableEq, Repr

/-- A `FunctionDeclarationDict`. -/
structure GeminiFunctionDeclaration where
  name : String
  description : String
  parameters_type : GeminiType
  parameters_properties : List (String × GeminiSchemaProperty)
  parameters_required : List String
deriving DecidableEq, Repr

/-- The property entry for one parameter in `GeminiClient._convert_tool`,
with the same truthiness filtering of `enum`/`default` as the other two
adapters. -/
def gemini_convert_parameter_property (param : ToolParameter) :
    GeminiSchemaProperty :=
  { type := gemini_convert_parameter_type param.type,
    description := param.description,
    enum := if optListTruthy param.enum then param.enum else none,
    default :=
      if (param.default.map PyVal.truthy).getD false then param.default
      else none }

/-- `GeminiClient._convert_tool` (one `ToolDict` wrapping one function
declaration). -/
def gemini_convert_tool (schema : ToolSchema) : GeminiFunctionDeclaration :=
  { name := schema.name,
    description := schema.description,
    parameters_type := .OBJECT,
    parameters_properties :=
      schema.parameters.map
        (fun p => (p.name, gemini_convert_parameter_property p)),
    parameters_required := convert_tool_required schema.parameters }

/-- A part of a Gemini `ContentDict` built by `_convert_message`. -/
inductive GeminiPartParam where
  | text (text : String)
  | functionCall (id : Option String) (name : String)
      (args : List (String × PyVal))
  | functionResponse (id : Option String) (name : String)
      (response : String)
deriving DecidableEq, Repr

/-- A `ContentDict`; Gemini roles are `"user"`/`"model"`. -/
structure GeminiContentDict where
  role : String
  parts : List GeminiPartParam
deriving DecidableEq, Repr

/-- `GeminiClient._convert_message`.  The `function_response` payload is
`json.loads(result)` in the source; the raw result string is carried. -/
def gemini_convert_message : Message → GeminiContentDict
  | .text role text _ _ =>
      ⟨if role = .user then "user" else "model", [.text text]⟩
  | .toolUse _ call _ _ =>
      ⟨"model",
       [.functionCall (some call.tool_use_id) call.tool_name call.arguments]⟩
  | .toolUseResult _ call_result _ =>
      ⟨"user",
       [.functionResponse (some call_result.tool_use_id)
         call_result.tool_name call_result.result]⟩

/-- The `config` dict `GeminiClient.send_message` builds: output budget,
temperature, and — only when truthy — tools and the system instruction.
It contains no setting that touches parallel tool calling. -/
structure GeminiConfig where
  max_output_tokens : Nat
  temperature : ℚ
  tools : Option (List GeminiFunctionDeclaration) := none
  system_instruction : Option String := none
deriving DecidableEq, Repr

/-- The `args` dict `GeminiClient.send_message` passes to the network
call. -/
structure GeminiRequest where
  model : String
  contents : List GeminiContentDict
  config : GeminiConfig
deriving DecidableEq, Repr

/-- Request construction in `GeminiClient.send_message` (lines 41–58). -/
def gemini_send_message_request (model : String)
    (messages : List Message) (system_message : Option String)
    (tools : Option (List ToolSchema)) (max_tokens : Nat)
    (temperature : ℚ) : GeminiRequest :=
  { model := model,
    contents := messages.map gemini_convert_message,
    config :=
      { max_output_tokens := max_tokens,
        temperature := temperature,
        tools :=
          if optListTruthy tools then
            (tools.getD []).map gemini_convert_tool
          else none,
        system_instruction :=
          if optStrTruthy system_message then system_message else none } }

/-- The keys of the `config` dict, in insertion order. -/
def geminiConfigKeys (c : GeminiConfig) : List String :=
  ["max_output_tokens", "temperature"] ++
    (if c.tools.isSome then ["tools"] else []) ++
    (if c.system_instruction.isSome then ["system_instruction"] else [])

/-- All keys of the `args` dict of `GeminiClient.send_message`, the nested
`config` keys included. -/
def geminiRequestKeys (r : GeminiRequest) : List String :=
  ["model", "contents", "config"] ++ geminiConfigKeys r.config

/-- The request keys with which the three vendor APIs control parallel
tool calling: Anthropic's `tool_choice.disable_parallel_tool_use`,
OpenAI's `parallel_tool_calls`, and Gemini's `tool_config` (function
calling config). -/
def parallelToolCallControlKeys : List String :=
  ["disable_parallel_tool_use", "parallel_tool_calls", "tool_choice",
   "tool_config"]

/-- A `function_call` part of a raw Gemini candidate: every field of the
SDK object is optional. -/
structure GeminiRawFunctionCall where
  id : Option String := none
  name : Option String := none
  args : Option (List (String × PyVal)) := none
deriving DecidableEq, Repr

/-- A part of a raw Gemini candidate. -/
structure GeminiRawPart where
  text : Option String := none
  function_call : Option GeminiRawFunctionCall := none
deriving DecidableEq, Repr

/-- A raw Gemini candidate: `content` and its `parts` are optional. -/
structure GeminiRawCandidate where
  content_parts : Option (List GeminiRawPart) := none
  finish_reason : Option String := none
deriving DecidableEq, Repr

/-- Usage metadata of a raw Gemini response. -/
structure GeminiUsageMetadata where
  prompt_token_count : Option Nat := none
  candidates_token_count : Option Nat := none
deriving DecidableEq, Repr

/-- A raw Gemini `GenerateContentResponse`. -/
structure GeminiRawResponse where
  candidates : List GeminiRawCandidate
  usage_metadata : Option GeminiUsageMetadata := none
deriving DecidableEq, Repr

/-- The part-walking loop of `GeminiClient._convert_llm_response`: a part
with `text is not None` yields a text message (built without
`thinking_data`/`agent` keys); a part with a function call is kept only
when its name and id are present and its args truthy (non-`None`,
non-empty) — otherwise the part is silently dropped. -/
def gemini_convert_parts : List GeminiRawPart → List Message
  | [] => []
  | part :: rest =>
      match part.text with
      | some t => Message.text .assistant t none none :: gemini_convert_parts rest
      | none =>
          match part.function_call with
          | some fc =>
              match fc.name, fc.id with
              | some name, some id =>
                  if optListTruthy fc.args then
                    Message.toolUse .assistant ⟨name, id, fc.args.getD []⟩
                        none none ::
                      gemini_convert_parts rest
                  else gemini_convert_parts rest
              | _, _ => gemini_convert_parts rest
          | none => gemini_convert_parts rest

/-- The `stop_reason_map` of `GeminiClient._convert_llm_response`. -/
def gemini_stop_reason_map (s : String) : Option StopReason :=
  if s == "STOP" then some .end_turn
  else if s == "MAX_TOKENS" then some .max_tokens
  else if s == "SAFETY" then some .content_filter
  else if s == "RECITATION" then some .recitation
  else if s == "OTHER" then some .unknown
  else none

/-- The empty response `GeminiClient._convert_llm_response` returns when
no usable candidate exists. -/
def EMPTY_LLM_RESPONSE : LLMResponse :=
  { content := [], stop_reason := some .no_candidates, usage := none }

/-- `GeminiClient._convert_llm_response`. -/
def gemini_convert_llm_response (model : String)
    (response : GeminiRawResponse) : LLMResponse :=
  match response.candidates with
  | [] => EMPTY_LLM_RESPONSE
  | best_candidate :: _ =>
      match best_candidate.content_parts with
      | none => EMPTY_LLM_RESPONSE
      | some parts =>
          if parts.isEmpty then EMPTY_LLM_RESPONSE
          else
            { content := gemini_convert_parts parts,
              stop_reason := stop_reason_of gemini_stop_reason_map
                best_candidate.finish_reason,
              usage :=
                match response.usage_metadata with
                | none => none
                | some um =>
                    match um.prompt_token_count, um.candidates_token_count with
                    | some input_tokens, some output_tokens =>
                        some { model := model,
                               input_tokens := some input_tokens,
                               output_tokens := some output_tokens,
                               cost := calculate_usage_cost model input_tokens
                                 output_tokens }
                    | _, _ => none }

/-! ## Agent turn loop (`agents/base.py`)

The model backend is an oracle: the result of the k-th `complete` call on
a client is a function of k.  `Except Unit LLMResponse` models a call
that either returns a response or raises.  The loop is embedded exactly
as written, including the `break` that sits inside the message loop. -/

/-- `message["agent"] = self.type`. -/
def setAgent (a : AgentType) : Message → Message
  | .text role text td _ => .text role text td (some a)
  | .toolUse role call td _ => .toolUse role call td (some a)
  | .toolUseResult role cr _ => .toolUseResult role cr (some a)

/-- `self.tool_map = {tool.schema.name: tool for tool in tools}` followed
by `self.tool_map.get(name)`: the last tool with the name wins. -/
def lookupTool (tools : List ToolSim) (name : String) : Option ToolSim :=
  tools.reverse.find? (fun t => t.name == name)

/-- The `ToolUseResultMessage` the loop appends after executing a tool:
`result` is `str(result.data)` and `error` is `bool(result.error)`. -/
def mk_tool_use_result_message (agent : AgentType) (call : ToolUseData)
    (result : ToolResult) : Message :=
  .toolUseResult .user
    { tool_name := call.tool_name,
      tool_use_id := call.tool_use_id,
      result := result.data.pyStr,
      error := pyBoolOptStr result.error }
    (some agent)

/-- Outcome of the `for message in response.content` loop of one turn. -/
structure TurnOutcome where
  /-- messages appended to the transcript and emitted, in order -/
  emitted : List Message
  /-- the `has_tool_use` flag after the loop -/
  has_tool_use : Bool
  /-- `false` when `_handle_tool_use` raised `ToolNotFoundException` -/
  ok : Bool
deriving DecidableEq, Repr

/-- The message loop of `BaseAgent.invoke` (lines 94–122): each message is
tagged with the agent and appended+emitted; a `tool_use` message
triggers a synchronous tool execution whose result message is
appended+emitted with the same correlation id (an unregistered tool name
raises); after each message, `if not has_tool_use: break` leaves this
inner loop — and only this inner loop. -/
def processMsgs (tools : List ToolSim) (agent : AgentType) :
    List Message → Bool → TurnOutcome
  | [], has_tool_use => ⟨[], has_tool_use, true⟩
  | m :: rest, has_tool_use =>
      let m' := setAgent agent m
      match m' with
      | .toolUse _ call _ _ =>
          match lookupTool tools call.tool_name with
          | none => ⟨[m'], true, false⟩
          | some tool =>
              let result_message :=
                mk_tool_use_result_message agent call (tool.run call.arguments)
              let o := processMsgs tools agent rest true
              ⟨m' :: result_message :: o.emitted, o.has_tool_use, o.ok⟩
      | _ =>
          if has_tool_use then
            let o := processMsgs tools agent rest has_tool_use
            ⟨m' :: o.emitted, o.has_tool_use, o.ok⟩
          else ⟨[m'], false, true⟩

/-- Outcome of the `for _ in range(self.max_turns)` loop. -/
structure RunOutcome where
  emitted : List Message
  primary_calls : Nat
  fallback_calls : Nat
  /-- `false` when an unrecovered exception propagated -/
  ok : Bool
deriving DecidableEq, Repr

/-- The turn loop of `BaseAgent.invoke` (lines 64–122), entered with
`remaining` turns left and the call counters of the two clients.  Each
turn calls the primary client once; on failure, a configured fallback is
tried once, and a second failure (or a missing fallback) propagates.  The
turn's messages are then processed by `processMsgs`; the loop proceeds to
the next turn whatever `has_tool_use` ended up as, because the `break` of
line 122 never reaches this loop. -/
def runTurns (primary : Nat → Except Unit LLMResponse)
    (fallback : Option (Nat → Except Unit LLMResponse))
    (tools : List ToolSim) (agent : AgentType) :
    Nat → Nat → Nat → RunOutcome
  | 0, p, f => ⟨[], p, f, true⟩
  | remaining + 1, p, f =>
      match primary p with
      | .ok response =>
          let o := processMsgs tools agent response.content false
          if o.ok then
            let r := runTurns primary fallback tools agent remaining (p + 1) f
            ⟨o.emitted ++ r.emitted, r.primary_calls, r.fallback_calls, r.ok⟩
          else ⟨o.emitted, p + 1, f, false⟩
      | .error _ =>
          match fallback with
          | none => ⟨[], p + 1, f, false⟩
          | some fb =>
              match fb f with
              | .ok response =>
                  let o := processMsgs tools agent response.content false
                  if o.ok then
                    let r := runTurns primary fallback tools agent remaining
                      (p + 1) (f + 1)
                    ⟨o.emitted ++ r.emitted, r.primary_calls,
                      r.fallback_calls, r.ok⟩
                  else ⟨o.emitted, p + 1, f + 1, false⟩
              | .error _ => ⟨[], p + 1, f + 1, false⟩

/-- Result of one agent invocation. -/
structure InvokeOutcome where
  /-- `self.messages` after the invocation (for a fresh agent) -/
  messages : List Message
  /-- the messages yielded to the caller, in order -/
  emitted : List Message
  primary_calls : Nat
  fallback_calls : Nat
  ok : Bool
deriving DecidableEq, Repr

/-- `BaseAgent.invoke` for a fresh agent (empty transcript): the optional
prompt is appended as a user text message (not emitted), then the turn
loop runs. -/
def invoke (primary : Nat → Except Unit LLMResponse)
    (fallback : Option (Nat → Except Unit LLMResponse))
    (tools : List ToolSim) (agent : AgentType) (max_turns : Nat)
    (prompt : Option String) : InvokeOutcome :=
  let initial : List Message :=
    match prompt with
    | some p => [.text .user p none (some agent)]
    | none => []
  let r := runTurns primary fallback tools agent max_turns 0 0
  { messages := initial ++ r.emitted,
    emitted := r.emitted,
    primary_calls := r.primary_calls,
    fallback_calls := r.fallback_calls,
    ok := r.ok }

/-! ## Concrete instances used by the theorems and witnesses below -/

/-- A two-text-message model turn with no tool use. -/
def c1_turn_response : LLMResponse :=
  { content := [.text .assistant "first" none none,
                .text .assistant "second" none none],
    stop_reason := some .end_turn }

/-- An oracle that answers every `complete` call with `c1_turn_response`. -/
def c1_oracle : Nat → Except Unit LLMResponse := fun _ => .ok c1_turn_response

/-- A network call that fails on its first attempt and succeeds on the
second. -/
def c2_failing_then_ok : Nat → Except String Nat :=
  fun k => if k = 0 then .error "boom" else .ok 42

/-- A network call that fails on every attempt. -/
def c2_always_failing : Nat → Except String Nat := fun _ => .error "down"

/-- A one-parameter tool schema. -/
def c3_tool_schema : ToolSchema :=
  { name := "search", description := "find things",
    parameters := [{ name := "query", description := "the query",
                     type := .string }] }

/-- The Gemini request built for a concrete completion call that passes a
system message and one tool. -/
def c3_gemini_request : GeminiRequest :=
  gemini_send_message_request "gemini-2.5-flash" [] (some "be brief")
    (some [c3_tool_schema]) 16384 (7/10)

/-- A raw Anthropic response whose `stop_reason` is absent. -/
def c5_absent_status_response : AnthropicRawMessage :=
  { content := [.text "ok"], stop_reason := none }

/-- A raw Gemini response with an empty candidate list. -/
def c7_empty_candidates_response : GeminiRawResponse :=
  { candidates := [] }

/-- A parameter whose `enum` is present but empty and whose `default` is
present but falsy (`0`). -/
def c9_param : ToolParameter :=
  { name := "count", description := "how many", type := .integer,
    required := false, enum := some [], default := some (.vint 0) }

/-- A schema holding `c9_param`. -/
def c9_schema : ToolSchema :=
  { name := "tool", description := "a tool", parameters := [c9_param] }

/-- A parameter with truthy enum and default values. -/
def c9_rich_param : ToolParameter :=
  { name := "mode", description := "mode", type := .string,
    required := true, enum := some [.vstr "a", .vstr "b"],
    default := some (.vstr "a") }

/-- A schema exercising required/enum/default for the witness of the
amended tool-conversion theorem. -/
def c9_rich_schema : ToolSchema :=
  { name := "rich", description := "rich tool",
    parameters :=
      [c9_rich_param,
       { name := "limit", description := "limit", type := .integer,
         required := false }] }

/-- A tool returning `success = False` with `error = None`. -/
def c10_tool (d : PyVal) : ToolSim :=
  ⟨"t", fun _ => { success := false, data := d, error := none }⟩

/-- A model turn consisting of one call of the tool `"t"`. -/
def c10_response : LLMResponse :=
  { content := [.toolUse .assistant ⟨"t", "call_1", [("x", .vint 1)]⟩
      none none],
    stop_reason := some .tool_use }

/-- A tool whose result is a plain string datum, used by the pairing
witness. -/
def c8_tool : ToolSim :=
  ⟨"t", fun _ => { success := true, data := .vstr "done" }⟩

/-- Turn 0 answers with one tool call `id_a`, turn 1 with a text. -/
def c8_oracle : Nat → Except Unit LLMResponse :=
  fun k =>
    if k = 0 then
      .ok { content := [.toolUse .assistant ⟨"t", "id_a", []⟩ none none],
            stop_reason := some .tool_use }
    else .ok { content := [.text .assistant "done" none none],
               stop_reason := some .end_turn }

/-! ## Transcript observables used by the pairing invariant -/

/-- The correlation id of a `ToolUse` message, if the message is one. -/
def callIdOf? : Message → Option String
  | .toolUse _ call _ _ => some call.tool_use_id
  | _ => none

/-- The correlation id of a `ToolUseResult` message, if the message is
one. -/
def resIdOf? : Message → Option String
  | .toolUseResult _ cr _ => some cr.tool_use_id
  | _ => none

/-- Whether a message is a `ToolUseResult`. -/
def isRes (m : Message) : Bool := (resIdOf? m).isSome

/-- The `tool_use_id`s of the `ToolUse` messages of a transcript, in
order. -/
def callIds (T : List Message) : List String := T.filterMap callIdOf?

/-- A `ToolUseResult` message is admissible only when the immediately
preceding message is a `ToolUse` with the same correlation id. -/
def followsMatchingCall (prev : Option Message) (m : Message) : Bool :=
  match resIdOf? m with
  | none => true
  | some i =>
      match prev with
      | some pm => callIdOf? pm == some i
      | none => false

/-- Every `ToolUseResult` of the list immediately follows a `ToolUse`
with the same correlation id, the element before the list's head being
`prev`. -/
def resAdjFrom : Option Message → List Message → Bool
  | _, [] => true
  | prev, m :: rest => followsMatchingCall prev m && resAdjFrom (some m) rest

/-- The content a `complete` call contributed: the response content on
success, nothing on a raised exception. -/
def okContent (r : Except Unit LLMResponse) : List Message :=
  match r with
  | .ok resp => resp.content
  | .error _ => []

/-- The `ToolUse` ids of the responses an oracle returns for call indices
`start, start+1, …, start+n-1`, concatenated in order. -/
def rangeCallIds (o : Nat → Except Unit LLMResponse) : Nat → Nat → List String
  | _, 0 => []
  | start, n + 1 =>
      callIds (okContent (o start)) ++ rangeCallIds o (start + 1) n

/-- `rangeCallIds` of an optional fallback oracle. -/
def fallbackRangeCallIds (fallback : Option (Nat → Except Unit LLMResponse))
    (start n : Nat) : List String :=
  match fallback with
  | none => []
  | some fb => rangeCallIds fb start n

/-- The transcript one invocation of a fresh agent produces. -/
def transcript (primary : Nat → Except Unit LLMResponse)
    (fallback : Option (Nat → Except Unit LLMResponse))
    (tools : List ToolSim) (agent : AgentType) (max_turns : Nat)
    (prompt : Option String) : List Message :=
  (invoke primary fallback tools agent max_turns prompt).messages

/-! ## Theorems -/

/-- **C1** (code bug).  The claim says that after processing all messages
of a turn whose response contains zero `ToolUse` messages, the loop emits
every message of that turn and terminates without issuing another
`complete` call.  The code's `break` sits inside the message loop
(`agents/base.py:121-122`), so on a two-text-message turn with
`max_turns = 2` the loop emits only the first message of the turn and
still issues a second `complete` call: `primary_calls = 2` and the
emitted stream is the first message twice, the second message never. -/
theorem c1_no_tool_use_turn_does_not_terminate :
    (invoke c1_oracle none [] .manager 2 none).primary_calls = 2 ∧
    (invoke c1_oracle none [] .manager 2 none).emitted =
      [.text .assistant "first" none (some .manager),
       .text .assistant "first" none (some .manager)] :=
  ⟨rfl, rfl⟩

/-- **C2** (code bug).  The claim says every `complete` call wraps the
network call in bounded exponential-backoff retry.  The decorator
`@exponential_backoff_retry(retries=5, delay=1.0)` on
`_call_llm_api_with_retry` is commented out, so the wrapper performs
exactly one network attempt and propagates the first failure; the
still-present `exponential_backoff_retry` combinator, at the decorator's
own configuration, would have recovered the same call after one 1-second
sleep, and on persistent failure re-raises after `retries` attempts with
the delay doubling after each failed one. -/
theorem c2_retry_wrapper_performs_single_attempt :
    (∀ (α : Type) (f : Nat → Except String α),
        call_llm_api_with_retry f = f 0) ∧
    call_llm_api_with_retry c2_failing_then_ok = .error "boom" ∧
    exponential_backoff_retry 1 5 c2_failing_then_ok = (.ok 42, [1]) ∧
    exponential_backoff_retry 2 3 c2_always_failing =
      (.error "down", [2, 4]) :=
  ⟨fun _ _ => rfl, rfl,
    by norm_num [exponential_backoff_retry, backoffAux, c2_failing_then_ok],
    by norm_num [exponential_backoff_retry, backoffAux, c2_always_failing]⟩

/-- **C4** (code bug).  The claim says an invalid provider/model pair (or
reasoning on a non-reasoning model) fails construction with a descriptive
error while a valid configuration constructs successfully.  In the code
every construction fails: `create_llm_client` passes one positional
argument to constructors requiring two, each subclass constructor passes
four positional arguments to `BaseLLMClient.__init__(self, config)`, and
even the base body, reached with a valid model, reads the not yet
assigned attribute `self.reasoning_enabled` inside `_validate_model`
(`AttributeError`); only the invalid-model path produces the descriptive
`ValueError` the claim describes. -/
theorem c4_client_construction_always_fails :
    (∀ config : LLMClientConfig,
        create_llm_client config =
          .error (.typeError
            "__init__ missing 1 required positional argument: api_key")) ∧
    (∀ (provider : ModelProvider) (model api_key : String) (reasoning : Bool),
        subclass_client_init provider model api_key reasoning =
          .error (.typeError
            "BaseLLMClient.__init__ takes 2 positional arguments but 5 were given")) ∧
    base_llm_client_init_body
        { provider := .anthropic, api_key := "key",
          model := "claude-sonnet-4-5" } =
      .error (.attributeError "object has no attribute reasoning_enabled") ∧
    base_llm_client_init_body
        { provider := .anthropic, api_key := "key", model := "not-a-model" } =
      .error (.valueError "Invalid Anthropic model not-a-model") :=
  ⟨fun _ => rfl, fun _ _ _ _ => rfl, by rfl, by rfl⟩

/-- Each level of the turn loop increments the primary-call counter at
most once per remaining turn. -/
theorem runTurns_primary_calls_le (primary : Nat → Except Unit LLMResponse)
    (fallback : Option (Nat → Except Unit LLMResponse))
    (tools : List ToolSim) (agent : AgentType) :
    ∀ (n p f : Nat),
      (runTurns primary fallback tools agent n p f).primary_calls ≤ p + n := by
  intro n
  induction n with
  | zero => intro p f; simp [runTurns]
  | succ n ih =>
      intro p f
      rcases hp : primary p with e | response
      · cases fallback with
        | none => simp [runTurns, hp]
        | some fb =>
            rcases hf : fb f with e2 | response
            · simp [runTurns, hp, hf]
            · cases ho : (processMsgs tools agent response.content false).ok
              · simp [runTurns, hp, hf, ho]
              · have h := ih (p + 1) (f + 1)
                simp [runTurns, hp, hf, ho]
                omega
      · cases ho : (processMsgs tools agent response.content false).ok
        · simp [runTurns, hp, ho]
        · have h := ih (p + 1) f
          simp [runTurns, hp, ho]
          omega

/-- **C6** (confirmed).  For every model behaviour (primary and fallback
oracle), tool set, and prompt, the turn loop executes at most `max_turns`
turns, so the number of `complete` calls issued to the primary client is
bounded by `max_turns`; termination is inherent in the embedding, which
is a total function. -/
theorem c6_primary_calls_bounded_by_max_turns
    (primary : Nat → Except Unit LLMResponse)
    (fallback : Option (Nat → Except Unit LLMResponse))
    (tools : List ToolSim) (agent : AgentType) (max_turns : Nat)
    (prompt : Option String) :
    (invoke primary fallback tools agent max_turns prompt).primary_calls ≤
      max_turns := by
  have h := runTurns_primary_calls_le primary fallback tools agent max_turns 0 0
  simpa [invoke] using h

/-- Every key of a Gemini request dict is one of the seven keys the
source writes. -/
theorem geminiRequestKeys_subset (r : GeminiRequest) :
    geminiRequestKeys r ⊆ ["model", "contents", "config",
      "max_output_tokens", "temperature", "tools", "system_instruction"] := by
  intro k hk
  simp only [geminiRequestKeys, geminiConfigKeys, List.append_assoc,
    List.mem_append] at hk
  rcases hk with hk | hk | hk | hk
  · simp only [List.mem_cons, List.not_mem_nil, or_false] at hk
    rcases hk with rfl | rfl | rfl <;> simp
  · simp only [List.mem_cons, List.not_mem_nil, or_false] at hk
    rcases hk with rfl | rfl <;> simp
  · split at hk
    · simp only [List.mem_singleton] at hk
      subst hk; simp
    · simp at hk
  · split at hk
    · simp only [List.mem_singleton] at hk
      subst hk; simp
    · simp at hk

/-- **C3** (corrected): counterexample.  The claim says parallel tool
calls are disabled in every outgoing request of all three adapters; the
concrete Gemini request built by `send_message` contains no key that
controls parallel tool calling at all (neither a disable flag nor a tool
config), so the Gemini-style adapter does not disable them. -/
theorem c3_gemini_request_has_no_parallel_setting :
    geminiRequestKeys c3_gemini_request =
      ["model", "contents", "config", "max_output_tokens", "temperature",
       "tools", "system_instruction"] ∧
    (geminiRequestKeys c3_gemini_request).all
      (fun k => !(parallelToolCallControlKeys.contains k)) = true := by
  constructor
  · rfl
  · rfl

/-- **C3** (corrected): amended claim.  The Anthropic-style adapter
always sends `tool_choice = {type: "auto", disable_parallel_tool_use:
True}` and the OpenAI-style adapter always sends
`parallel_tool_calls = False`; the Gemini-style adapter's request
carries no parallel-tool-call setting of any kind. -/
theorem c3_parallel_disabled_amended :
    (∀ (model : String) (re : Bool) (msgs : List Message)
        (sys : Option String) (tools : Option (List ToolSchema))
        (mt : Nat) (temp : ℚ),
      (anthropic_complete_request model re msgs sys tools mt
          temp).tool_choice = ⟨"auto", true⟩ ∧
      (openai_complete_request model re msgs sys tools mt
          temp).parallel_tool_calls = false) ∧
    ∀ (model : String) (msgs : List Message) (sys : Option String)
      (tools : Option (List ToolSchema)) (mt : Nat) (temp : ℚ),
      ∀ k ∈ geminiRequestKeys
          (gemini_send_message_request model msgs sys tools mt temp),
        k ∉ parallelToolCallControlKeys := by
  refine ⟨fun _ _ _ _ _ _ _ => ⟨rfl, rfl⟩, ?_⟩
  intro model msgs sys tools mt temp k hk
  have h := geminiRequestKeys_subset _ hk
  simp only [List.mem_cons, List.not_mem_nil, or_false] at h
  rcases h with rfl | rfl | rfl | rfl | rfl | rfl | rfl <;> decide

/-- **C5** (corrected): counterexample.  The claim says an absent vendor
status yields the stop reason `unknown`; converting a raw Anthropic
response whose `stop_reason` is `None` yields `stop_reason = None`, not
`unknown`. -/
theorem c5_absent_vendor_status_not_unknown :
    (anthropic_convert_llm_response "claude-sonnet-4-5"
        c5_absent_status_response).stop_reason = none ∧
    (anthropic_convert_llm_response "claude-sonnet-4-5"
        c5_absent_status_response).stop_reason ≠ some .unknown := by
  constructor
  · rfl
  · decide

/-- **C5** (corrected): amended claim.  Each adapter maps its vendor's
completion status into the closed `StopReason` set; a present but
unmapped status yields `unknown`, while an absent (falsy) status leaves
the stop reason unset (`None`) rather than `unknown`. -/
theorem c5_stop_reason_mapping_amended (model s : String)
    (hne : s.isEmpty = false)
    (hA : s ∉ ["end_turn", "max_tokens", "stop_sequence", "tool_use"])
    (hO : s ∉ ["completed", "incomplete", "failed"])
    (hG : s ∉ ["STOP", "MAX_TOKENS", "SAFETY", "RECITATION"])
    (blocksA : List AnthropicResponseBlock) (uA : Option AnthropicUsage)
    (blocksO : List OpenAIOutputBlock) (uO : Option OpenAIUsage)
    (partsG : List GeminiRawPart) (hparts : partsG.isEmpty = false)
    (uG : Option GeminiUsageMetadata) :
    (anthropic_convert_llm_response model
        { content := blocksA, stop_reason := some s,
          usage := uA }).stop_reason = some .unknown ∧
    (anthropic_convert_llm_response model
        { content := blocksA, stop_reason := none,
          usage := uA }).stop_reason = none ∧
    (openai_convert_llm_response model
        { output := blocksO, status := some s,
          usage := uO }).stop_reason = some .unknown ∧
    (openai_convert_llm_response model
        { output := blocksO, status := none,
          usage := uO }).stop_reason = none ∧
    (gemini_convert_llm_response model
        { candidates := [⟨some partsG, some s⟩],
          usage_metadata := uG }).stop_reason = some .unknown ∧
    (gemini_convert_llm_response model
        { candidates := [⟨some partsG, none⟩],
          usage_metadata := uG }).stop_reason = none := by
  simp only [List.mem_cons, List.not_mem_nil, or_false, not_or] at hA hO hG
  obtain ⟨hA1, hA2, hA3, hA4⟩ := hA
  obtain ⟨hO1, hO2, hO3⟩ := hO
  obtain ⟨hG1, hG2, hG3, hG4⟩ := hG
  refine ⟨?_, ?_, ?_, ?_, ?_, ?_⟩
  · simp [anthropic_convert_llm_response, stop_reason_of, optStrTruthy, hne,
      anthropic_stop_reason_map, hA1, hA2, hA3, hA4]
  · simp [anthropic_convert_llm_response, stop_reason_of, optStrTruthy]
  · simp [openai_convert_llm_response, stop_reason_of, optStrTruthy, hne,
      openai_stop_reason_map, hO1, hO2, hO3]
  · simp [openai_convert_llm_response, stop_reason_of, optStrTruthy]
  · simp [gemini_convert_llm_response, hparts, stop_reason_of, optStrTruthy,
      hne, gemini_stop_reason_map, hG1, hG2, hG3, hG4]
    split <;> rfl
  · simp [gemini_convert_llm_response, hparts, stop_reason_of, optStrTruthy]

/-- Witness for `c5_stop_reason_mapping_amended` at the vendor status
`"weird"` and a one-text-part Gemini candidate. -/
theorem c5_stop_reason_mapping_amended_witness :
    (("weird" : String).isEmpty = false ∧
     "weird" ∉ ["end_turn", "max_tokens", "stop_sequence", "tool_use"] ∧
     "weird" ∉ ["completed", "incomplete", "failed"] ∧
     "weird" ∉ ["STOP", "MAX_TOKENS", "SAFETY", "RECITATION"] ∧
     ([({ text := some "hi" } : GeminiRawPart)].isEmpty = false)) ∧
    ((anthropic_convert_llm_response "claude-sonnet-4-5"
        { content := [], stop_reason := some "weird",
          usage := none }).stop_reason = some .unknown ∧
     (anthropic_convert_llm_response "claude-sonnet-4-5"
        { content := [], stop_reason := none,
          usage := none }).stop_reason = none ∧
     (openai_convert_llm_response "claude-sonnet-4-5"
        { output := [], status := some "weird",
          usage := none }).stop_reason = some .unknown ∧
     (openai_convert_llm_response "claude-sonnet-4-5"
        { output := [], status := none,
          usage := none }).stop_reason = none ∧
     (gemini_convert_llm_response "claude-sonnet-4-5"
        { candidates := [⟨some [{ text := some "hi" }], some "weird"⟩],
          usage_metadata := none }).stop_reason = some .unknown ∧
     (gemini_convert_llm_response "claude-sonnet-4-5"
        { candidates := [⟨some [{ text := some "hi" }], none⟩],
          usage_metadata := none }).stop_reason = none) :=
  ⟨⟨by decide, by decide, by decide, by decide, by decide⟩,
   c5_stop_reason_mapping_amended "claude-sonnet-4-5" "weird" (by decide)
     (by decide) (by decide) (by decide) [] none [] none
     [{ text := some "hi" }] (by decide) none⟩

/-- A turn loop whose primary client always returns the empty
no-candidates response emits nothing and finishes without an exception,
whatever the fallback, tools and turn budget. -/
theorem runTurns_const_empty (fallback : Option (Nat → Except Unit LLMResponse))
    (tools : List ToolSim) (agent : AgentType) :
    ∀ (n p f : Nat),
      (runTurns (fun _ => .ok EMPTY_LLM_RESPONSE) fallback tools agent
          n p f).emitted = [] ∧
      (runTurns (fun _ => .ok EMPTY_LLM_RESPONSE) fallback tools agent
          n p f).ok = true := by
  intro n
  induction n with
  | zero => intro p f; exact ⟨rfl, rfl⟩
  | succ n ih =>
      intro p f
      have h := ih (p + 1) f
      simpa [runTurns, EMPTY_LLM_RESPONSE, processMsgs] using h

/-- **C7** (confirmed).  A Gemini-style raw response whose candidate list
is empty, or whose first candidate has no content parts, converts to a
`Response` with empty content and stop reason `no_candidates` (without
raising), and an invocation whose model keeps returning that response
emits no message and ends without an exception. -/
theorem c7_no_candidates_handled_cleanly (model : String)
    (response : GeminiRawResponse)
    (h : response.candidates = [] ∨
      ∃ c rest, response.candidates = c :: rest ∧
        (c.content_parts = none ∨ c.content_parts = some [])) :
    gemini_convert_llm_response model response = EMPTY_LLM_RESPONSE ∧
    EMPTY_LLM_RESPONSE.content = [] ∧
    EMPTY_LLM_RESPONSE.stop_reason = some .no_candidates ∧
    ∀ (fallback : Option (Nat → Except Unit LLMResponse))
      (tools : List ToolSim) (agent : AgentType) (max_turns : Nat),
      (invoke (fun _ => .ok (gemini_convert_llm_response model response))
          fallback tools agent max_turns none).ok = true ∧
      (invoke (fun _ => .ok (gemini_convert_llm_response model response))
          fallback tools agent max_turns none).emitted = [] := by
  have hconv : gemini_convert_llm_response model response =
      EMPTY_LLM_RESPONSE := by
    rcases h with h | ⟨c, rest, hc, hp⟩
    · simp [gemini_convert_llm_response, h]
    · rcases hp with hp | hp <;> simp [gemini_convert_llm_response, hc, hp]
  refine ⟨hconv, rfl, rfl, ?_⟩
  intro fallback tools agent max_turns
  simp only [hconv]
  have h2 := runTurns_const_empty fallback tools agent max_turns 0 0
  exact ⟨by simp [invoke, h2.2], by simp [invoke, h2.1]⟩

/-- Witness for `c7_no_candidates_handled_cleanly` at the raw response
with an empty candidate list, one tool, and a two-turn budget. -/
theorem c7_no_candidates_handled_cleanly_witness :
    (c7_empty_candidates_response.candidates = [] ∨
      ∃ c rest, c7_empty_candidates_response.candidates = c :: rest ∧
        (c.content_parts = none ∨ c.content_parts = some [])) ∧
    (gemini_convert_llm_response "gemini-2.5-flash"
        c7_empty_candidates_response = EMPTY_LLM_RESPONSE ∧
     EMPTY_LLM_RESPONSE.content = [] ∧
     EMPTY_LLM_RESPONSE.stop_reason = some .no_candidates ∧
     ∀ (fallback : Option (Nat → Except Unit LLMResponse))
       (tools : List ToolSim) (agent : AgentType) (max_turns : Nat),
       (invoke (fun _ => .ok (gemini_convert_llm_response "gemini-2.5-flash"
           c7_empty_candidates_response)) fallback tools agent max_turns
           none).ok = true ∧
       (invoke (fun _ => .ok (gemini_convert_llm_response "gemini-2.5-flash"
           c7_empty_candidates_response)) fallback tools agent max_turns
           none).emitted = []) :=
  ⟨Or.inl rfl,
   c7_no_candidates_handled_cleanly "gemini-2.5-flash"
     c7_empty_candidates_response (Or.inl rfl)⟩

/-- In a parameter list with distinct names, `find?` by name over the
name-keyed image finds exactly the image of the parameter. -/
theorem find?_map_name {β : Type} (g : ToolParameter → β) :
    ∀ (params : List ToolParameter),
      (params.map ToolParameter.name).Nodup →
      ∀ p ∈ params,
        (params.map (fun q => (q.name, g q))).find?
            (fun e => e.1 == p.name) = some (p.name, g p) := by
  intro params
  induction params with
  | nil => intro _ p hp; cases hp
  | cons q rest ih =>
      intro hnd p hp
      simp only [List.map_cons, List.nodup_cons] at hnd
      rcases List.mem_cons.1 hp with rfl | hp'
      · exact List.find?_cons_of_pos _ (beq_self_eq_true _)
      · have hne : q.name ≠ p.name := by
          intro h
          exact hnd.1 (h ▸ List.mem_map_of_mem ToolParameter.name hp')
        simp only [List.map_cons]
        rw [List.find?_cons_of_neg _ (by simp [hne])]
        exact ih hnd.2 p hp'

/-- With distinct parameter names, the Python-dict lookup into the
properties built from a parameter list returns the converted property of
the parameter. -/
theorem dictLookup_map_name {β : Type} (g : ToolParameter → β)
    (params : List ToolParameter)
    (hnd : (params.map ToolParameter.name).Nodup)
    (p : ToolParameter) (hp : p ∈ params) :
    dictLookup (params.map (fun q => (q.name, g q))) p.name = some (g p) := by
  have hrev : ((params.reverse).map ToolParameter.name).Nodup := by
    rw [List.map_reverse]
    exact List.nodup_reverse.2 hnd
  have h := find?_map_name g params.reverse hrev p (List.mem_reverse.2 hp)
  simp only [dictLookup, ← List.map_reverse]
  rw [h]
  rfl

/-- `required` collection of all three `_convert_tool`s: a parameter's
name is in the vendor required list exactly when its flag is set, given
distinct parameter names. -/
theorem convert_tool_required_iff (params : List ToolParameter)
    (hnd : (params.map ToolParameter.name).Nodup)
    (p : ToolParameter) (hp : p ∈ params) :
    p.name ∈ convert_tool_required params ↔ p.required = true := by
  constructor
  · intro hmem
    rcases List.mem_map.1 hmem with ⟨q, hq, hname⟩
    have hqmem := (List.mem_filter.1 hq).1
    have hqreq := (List.mem_filter.1 hq).2
    have hqp : q = p := List.inj_on_of_nodup_map hnd hqmem hp hname
    subst hqp
    simpa using hqreq
  · intro hreq
    exact List.mem_map.2 ⟨p, List.mem_filter.2 ⟨hp, by simpa using hreq⟩, rfl⟩

/-- **C9** (corrected): counterexample.  The claim says the tool
conversion copies each parameter's enum and default values unchanged
into the vendor descriptor; for the parameter `count` with
`default = 0` and `enum = []` the converted property carries neither
(the source guards them with Python truthiness tests), in every
adapter's descriptor shape. -/
theorem c9_falsy_default_and_empty_enum_dropped :
    c9_param.default = some (.vint 0) ∧ c9_param.enum = some [] ∧
    (anthropic_convert_tool c9_schema).input_schema_properties =
      [("count", { type := .integer, description := "how many" })] ∧
    (convert_parameter_property c9_param).default ≠ c9_param.default ∧
    (convert_parameter_property c9_param).enum ≠ c9_param.enum ∧
    (gemini_convert_parameter_property c9_param).default ≠ c9_param.default ∧
    (gemini_convert_parameter_property c9_param).enum ≠ c9_param.enum := by
  refine ⟨rfl, rfl, rfl, ?_, ?_, ?_, ?_⟩ <;> decide

/-- **C9** (corrected): amended claim.  For each adapter, under distinct
parameter names, a parameter's name appears in the vendor required list
iff its required flag is set, and the vendor property for the parameter
carries the parameter's enum exactly when the enum is truthy (present
and non-empty) and its default exactly when the default is truthy;
falsy enum/default values (absent, empty list, `0`, `False`, `""`) are
omitted from the descriptor. -/
theorem c9_tool_conversion_required_enum_default (schema : ToolSchema)
    (p : ToolParameter)
    (hnd : (schema.parameters.map ToolParameter.name).Nodup)
    (hp : p ∈ schema.parameters) :
    (p.name ∈ (anthropic_convert_tool schema).input_schema_required ↔
      p.required = true) ∧
    (p.name ∈ (openai_convert_tool schema).parameters_required ↔
      p.required = true) ∧
    (p.name ∈ (gemini_convert_tool schema).parameters_required ↔
      p.required = true) ∧
    dictLookup (anthropic_convert_tool schema).input_schema_properties
      p.name = some (convert_parameter_property p) ∧
    dictLookup (openai_convert_tool schema).parameters_properties
      p.name = some (convert_parameter_property p) ∧
    dictLookup (gemini_convert_tool schema).parameters_properties
      p.name = some (gemini_convert_parameter_property p) ∧
    (optListTruthy p.enum = true →
      (convert_parameter_property p).enum = p.enum ∧
      (gemini_convert_parameter_property p).enum = p.enum) ∧
    (optListTruthy p.enum = false →
      (convert_parameter_property p).enum = none ∧
      (gemini_convert_parameter_property p).enum = none) ∧
    ((p.default.map PyVal.truthy).getD false = true →
      (convert_parameter_property p).default = p.default ∧
      (gemini_convert_parameter_property p).default = p.default) ∧
    ((p.default.map PyVal.truthy).getD false = false →
      (convert_parameter_property p).default = none ∧
      (gemini_convert_parameter_property p).default = none) := by
  refine ⟨convert_tool_required_iff schema.parameters hnd p hp,
    convert_tool_required_iff schema.parameters hnd p hp,
    convert_tool_required_iff schema.parameters hnd p hp,
    dictLookup_map_name convert_parameter_property schema.parameters hnd p hp,
    dictLookup_map_name convert_parameter_property schema.parameters hnd p hp,
    dictLookup_map_name gemini_convert_parameter_property schema.parameters
      hnd p hp, ?_, ?_, ?_, ?_⟩ <;>
    intro h <;>
    constructor <;>
    simp [convert_parameter_property, gemini_convert_parameter_property, h]

/-- Witness for `c9_tool_conversion_required_enum_default` at a schema
with a required enum/default parameter `mode` and an optional plain
parameter `limit`. -/
theorem c9_tool_conversion_required_enum_default_witness :
    ((c9_rich_schema.parameters.map ToolParameter.name).Nodup ∧
      c9_rich_param ∈ c9_rich_schema.parameters) ∧
    ((c9_rich_param.name ∈
        (anthropic_convert_tool c9_rich_schema).input_schema_required ↔
        c9_rich_param.required = true) ∧
     (c9_rich_param.name ∈
        (openai_convert_tool c9_rich_schema).parameters_required ↔
        c9_rich_param.required = true) ∧
     (c9_rich_param.name ∈
        (gemini_convert_tool c9_rich_schema).parameters_required ↔
        c9_rich_param.required = true) ∧
     dictLookup (anthropic_convert_tool c9_rich_schema).input_schema_properties
       c9_rich_param.name = some (convert_parameter_property c9_rich_param) ∧
     dictLookup (openai_convert_tool c9_rich_schema).parameters_properties
       c9_rich_param.name = some (convert_parameter_property c9_rich_param) ∧
     dictLookup (gemini_convert_tool c9_rich_schema).parameters_properties
       c9_rich_param.name =
       some (gemini_convert_parameter_property c9_rich_param) ∧
     (optListTruthy c9_rich_param.enum = true →
       (convert_parameter_property c9_rich_param).enum = c9_rich_param.enum ∧
       (gemini_convert_parameter_property c9_rich_param).enum =
         c9_rich_param.enum) ∧
     (optListTruthy c9_rich_param.enum = false →
       (convert_parameter_property c9_rich_param).enum = none ∧
       (gemini_convert_parameter_property c9_rich_param).enum = none) ∧
     ((c9_rich_param.default.map PyVal.truthy).getD false = true →
       (convert_parameter_property c9_rich_param).default =
         c9_rich_param.default ∧
       (gemini_convert_parameter_property c9_rich_param).default =
         c9_rich_param.default) ∧
     ((c9_rich_param.default.map PyVal.truthy).getD false = false →
       (convert_parameter_property c9_rich_param).default = none ∧
       (gemini_convert_parameter_property c9_rich_param).default = none)) :=
  ⟨⟨by decide, by decide⟩,
   c9_tool_conversion_required_enum_default c9_rich_schema c9_rich_param
     (by decide) (by decide)⟩

/-- **C10** (confirmed).  The `ToolUseResult` the loop appends carries
`str(result.data)` as its result string — never the `error` string — and
its error flag is `bool(result.error)`; in particular a `ToolResult`
with `success = False` but `error = None` surfaces with `error = False`,
as shown by the full invocation whose tool returns exactly that. -/
theorem c10_tool_result_surfaced_from_data (d : PyVal) (agent : AgentType) :
    (invoke (fun _ => .ok c10_response) none [c10_tool d] agent 1
        none).messages =
      [.toolUse .assistant ⟨"t", "call_1", [("x", .vint 1)]⟩ none (some agent),
       .toolUseResult .user ⟨"t", "call_1", d.pyStr, false⟩ (some agent)] ∧
    (∀ (call : ToolUseData) (r : ToolResult),
      mk_tool_use_result_message agent call r =
        .toolUseResult .user
          ⟨call.tool_name, call.tool_use_id, r.data.pyStr,
            pyBoolOptStr r.error⟩ (some agent)) ∧
    pyBoolOptStr none = false ∧
    ∀ s : String, pyBoolOptStr (some s) = !s.isEmpty :=
  ⟨rfl, fun _ _ => rfl, rfl, fun _ => rfl⟩

/-- Tagging a message with the agent does not change whether it is a
tool call, nor its correlation id. -/
theorem callIdOf?_setAgent (a : AgentType) (m : Message) :
    callIdOf? (setAgent a m) = callIdOf? m := by
  cases m <;> rfl

/-- Tagging a message with the agent does not change whether it is a
tool result, nor its correlation id. -/
theorem resIdOf?_setAgent (a : AgentType) (m : Message) :
    resIdOf? (setAgent a m) = resIdOf? m := by
  cases m <;> rfl

/-- The message loop of one turn keeps results adjacent: fed messages
that contain no `ToolUseResult`, every result it appends immediately
follows the `ToolUse` with the same correlation id, whatever preceded
the turn in the transcript. -/
theorem processMsgs_resAdjFrom (tools : List ToolSim) (agent : AgentType) :
    ∀ (msgs : List Message), (∀ m ∈ msgs, isRes m = false) →
      ∀ (h : Bool) (prev : Option Message),
        resAdjFrom prev (processMsgs tools agent msgs h).emitted = true := by
  intro msgs
  induction msgs with
  | nil => intro _ h prev; simp [processMsgs, resAdjFrom]
  | cons m rest ih =>
      intro hall h prev
      have hm : isRes m = false := hall m (List.mem_cons_self m rest)
      have hrest : ∀ x ∈ rest, isRes x = false := fun x hx =>
        hall x (List.mem_cons_of_mem m hx)
      cases m with
      | text role t td ag =>
          cases h with
          | false =>
              simp [processMsgs, setAgent, resAdjFrom, followsMatchingCall,
                resIdOf?]
          | true =>
              simp only [processMsgs, setAgent, if_true]
              simp only [resAdjFrom, followsMatchingCall, resIdOf?,
                Bool.true_and]
              exact ih hrest true _
      | toolUse role call td ag =>
          cases hl : lookupTool tools call.tool_name with
          | none =>
              simp [processMsgs, setAgent, hl, resAdjFrom,
                followsMatchingCall, resIdOf?]
          | some tool =>
              simp only [processMsgs, setAgent, hl]
              simp only [resAdjFrom, followsMatchingCall, resIdOf?,
                mk_tool_use_result_message, callIdOf?, beq_self_eq_true,
                Bool.true_and]
              exact ih hrest true _
      | toolUseResult role cr ag =>
          exact absurd hm (by simp [isRes, resIdOf?])

/-- Adjacency of results composes across an append when the suffix is
adjacent for every possible predecessor. -/
theorem resAdjFrom_append (A B : List Message) :
    ∀ (prev : Option Message), resAdjFrom prev A = true →
      (∀ q, resAdjFrom q B = true) → resAdjFrom prev (A ++ B) = true := by
  induction A with
  | nil => intro prev _ hB; simpa using hB prev
  | cons a A ih =>
      intro prev hA hB
      simp only [resAdjFrom, Bool.and_eq_true] at hA
      simp only [List.cons_append, resAdjFrom, Bool.and_eq_true]
      exact ⟨hA.1, ih (some a) hA.2 hB⟩

/-- The whole turn loop keeps results adjacent when the model's
responses contain no `ToolUseResult` message. -/
theorem runTurns_resAdjFrom (primary : Nat → Except Unit LLMResponse)
    (fallback : Option (Nat → Except Unit LLMResponse))
    (tools : List ToolSim) (agent : AgentType)
    (h1 : ∀ k m, m ∈ okContent (primary k) → isRes m = false)
    (h2 : ∀ fb, fallback = some fb →
      ∀ k m, m ∈ okContent (fb k) → isRes m = false) :
    ∀ (n p f : Nat) (prev : Option Message),
      resAdjFrom prev
        (runTurns primary fallback tools agent n p f).emitted = true := by
  intro n
  induction n with
  | zero => intro p f prev; simp [runTurns, resAdjFrom]
  | succ n ih =>
      intro p f prev
      rcases hp : primary p with e | resp
      · cases hfb : fallback with
        | none => simp [runTurns, hp, hfb, resAdjFrom]
        | some fb =>
            rw [hfb] at ih
            rcases hf : fb f with e2 | resp
            · simp [runTurns, hp, hfb, hf, resAdjFrom]
            · have hcontent : ∀ m ∈ resp.content, isRes m = false := by
                intro m hm
                exact h2 fb hfb f m (by simpa [okContent, hf] using hm)
              cases ho : (processMsgs tools agent resp.content false).ok with
              | false =>
                  simp only [runTurns, hp, hfb, hf, ho, Bool.false_eq_true,
                    if_false]
                  exact processMsgs_resAdjFrom tools agent resp.content
                    hcontent false prev
              | true =>
                  simp only [runTurns, hp, hfb, hf, ho, if_true]
                  exact resAdjFrom_append _ _ prev
                    (processMsgs_resAdjFrom tools agent resp.content
                      hcontent false prev)
                    (fun q => ih (p + 1) (f + 1) q)
      · have hcontent : ∀ m ∈ resp.content, isRes m = false := by
          intro m hm
          exact h1 p m (by simpa [okContent, hp] using hm)
        cases ho : (processMsgs tools agent resp.content false).ok with
        | false =>
            simp only [runTurns, hp, ho, Bool.false_eq_true, if_false]
            exact processMsgs_resAdjFrom tools agent resp.content hcontent
              false prev
        | true =>
            simp only [runTurns, hp, ho, if_true]
            exact resAdjFrom_append _ _ prev
              (processMsgs_resAdjFrom tools agent resp.content hcontent
                false prev)
              (fun q => ih (p + 1) f q)

/-- The transcript of an invocation keeps results adjacent. -/
theorem transcript_resAdj (primary : Nat → Except Unit LLMResponse)
    (fallback : Option (Nat → Except Unit LLMResponse))
    (tools : List ToolSim) (agent : AgentType) (max_turns : Nat)
    (prompt : Option String)
    (h1 : ∀ k m, m ∈ okContent (primary k) → isRes m = false)
    (h2 : ∀ fb, fallback = some fb →
      ∀ k m, m ∈ okContent (fb k) → isRes m = false) :
    resAdjFrom none
      (transcript primary fallback tools agent max_turns prompt) = true := by
  cases prompt with
  | none =>
      simpa [transcript, invoke] using
        runTurns_resAdjFrom primary fallback tools agent h1 h2 max_turns 0 0
          none
  | some s =>
      simp only [transcript, invoke, List.cons_append, List.nil_append,
        resAdjFrom, followsMatchingCall, resIdOf?, Bool.true_and]
      exact runTurns_resAdjFrom primary fallback tools agent h1 h2 max_turns
        0 0 _

/-- The tool-call ids a turn appends form a sublist of the tool-call ids
of the response it processed: the loop walks a prefix of the response and
the result messages it interleaves carry no call id. -/
theorem processMsgs_callIds_sublist (tools : List ToolSim)
    (agent : AgentType) :
    ∀ (msgs : List Message) (h : Bool),
      List.Sublist (callIds (processMsgs tools agent msgs h).emitted)
        (callIds msgs) := by
  intro msgs
  induction msgs with
  | nil => intro h; simp [processMsgs, callIds]
  | cons m rest ih =>
      intro h
      cases m with
      | text role t td ag =>
          cases h with
          | false =>
              simp [processMsgs, setAgent, callIds, List.filterMap_cons,
                callIdOf?]
          | true =>
              simpa [processMsgs, setAgent, callIds, List.filterMap_cons,
                callIdOf?] using ih true
      | toolUse role call td ag =>
          cases hl : lookupTool tools call.tool_name with
          | none =>
              simp only [processMsgs, setAgent, hl, callIds,
                List.filterMap_cons, callIdOf?]
              exact (List.nil_sublist _).cons₂ _
          | some tool =>
              simp only [processMsgs, setAgent, hl, callIds,
                List.filterMap_cons, callIdOf?, mk_tool_use_result_message,
                resIdOf?]
              exact (ih true).cons₂ _
      | toolUseResult role cr ag =>
          cases h with
          | false =>
              simp [processMsgs, setAgent, callIds, List.filterMap_cons,
                callIdOf?]
          | true =>
              simpa [processMsgs, setAgent, callIds, List.filterMap_cons,
                callIdOf?] using ih true

/-- `rangeCallIds` over `n + 1` indices decomposes at its head. -/
theorem rangeCallIds_succ (o : Nat → Except Unit LLMResponse)
    (start n : Nat) :
    rangeCallIds o start (n + 1) =
      callIds (okContent (o start)) ++ rangeCallIds o (start + 1) n := rfl

/-- Extending the index range keeps the old ids, as multisets. -/
theorem rangeCallIds_le_succ (o : Nat → Except Unit LLMResponse) :
    ∀ (n start : Nat),
      (rangeCallIds o start n : Multiset String) ≤
        (rangeCallIds o start (n + 1) : Multiset String) := by
  intro n
  induction n with
  | zero => intro start; simp [rangeCallIds]
  | succ n ih =>
      intro start
      rw [rangeCallIds_succ, rangeCallIds_succ o start (n + 1)]
      rw [← Multiset.coe_add, ← Multiset.coe_add]
      exact add_le_add_left (ih (start + 1)) _

/-- Extending the index range of the fallback ids keeps the old ids. -/
theorem fallbackRangeCallIds_le_succ
    (fallback : Option (Nat → Except Unit LLMResponse)) (n start : Nat) :
    (fallbackRangeCallIds fallback start n : Multiset String) ≤
      (fallbackRangeCallIds fallback start (n + 1) : Multiset String) := by
  cases fallback with
  | none => simp [fallbackRangeCallIds]
  | some fb => exact rangeCallIds_le_succ fb n start

/-- Every tool-call id of the loop's output comes from a distinct
response occurrence: as a multiset, the transcript's call ids are
bounded by the call ids of the primary responses with call index
`p, …, p+n-1` plus those of the fallback responses with call index
`f, …, f+n-1`. -/
theorem runTurns_callIds_le (primary : Nat → Except Unit LLMResponse)
    (fallback : Option (Nat → Except Unit LLMResponse))
    (tools : List ToolSim) (agent : AgentType) :
    ∀ (n p f : Nat),
      (callIds (runTurns primary fallback tools agent n p f).emitted :
          Multiset String) ≤
        (rangeCallIds primary p n : Multiset String) +
          (fallbackRangeCallIds fallback f n : Multiset String) := by
  intro n
  induction n with
  | zero =>
      intro p f
      cases fallback <;> simp [runTurns, callIds, rangeCallIds,
        fallbackRangeCallIds]
  | succ n ih =>
      intro p f
      have hAcoe : (callIds (okContent (primary p)) :
          Multiset String) + (rangeCallIds primary (p + 1) n :
          Multiset String) = (rangeCallIds primary p (n + 1) :
          Multiset String) := by
        rw [rangeCallIds_succ, ← Multiset.coe_add]
      rcases hp : primary p with e | resp
      · cases hfb : fallback with
        | none => simp [runTurns, hp, hfb, callIds, fallbackRangeCallIds]
        | some fb =>
            rw [hfb] at ih
            have hDcoe : (callIds (okContent (fb f)) : Multiset String) +
                (rangeCallIds fb (f + 1) n : Multiset String) =
                (rangeCallIds fb f (n + 1) : Multiset String) := by
              rw [rangeCallIds_succ, ← Multiset.coe_add]
            rcases hf : fb f with e2 | resp
            · simp [runTurns, hp, hfb, hf, callIds]
            · have hx : (callIds (processMsgs tools agent resp.content
                  false).emitted : Multiset String) ≤
                  (callIds (okContent (fb f)) : Multiset String) := by
                rw [hf]
                exact Multiset.coe_le.2
                  (processMsgs_callIds_sublist tools agent resp.content
                    false).subperm
              cases ho : (processMsgs tools agent resp.content false).ok with
              | false =>
                  simp only [runTurns, hp, hfb, hf, ho, Bool.false_eq_true,
                    if_false, fallbackRangeCallIds]
                  calc (callIds (processMsgs tools agent resp.content
                        false).emitted : Multiset String)
                      ≤ _ := hx
                    _ ≤ (rangeCallIds fb f (n + 1) : Multiset String) := by
                        rw [← hDcoe]; exact self_le_add_right _ _
                    _ ≤ _ := self_le_add_left _ _
              | true =>
                  simp only [runTurns, hp, hfb, hf, ho, if_true,
                    fallbackRangeCallIds]
                  rw [callIds, List.filterMap_append, ← callIds, ← callIds,
                    ← Multiset.coe_add]
                  have hy := ih (p + 1) (f + 1)
                  simp only [fallbackRangeCallIds] at hy
                  calc (callIds (processMsgs tools agent resp.content
                          false).emitted : Multiset String) +
                        (callIds (runTurns primary (some fb) tools agent n
                          (p + 1) (f + 1)).emitted : Multiset String)
                      ≤ (callIds (okContent (fb f)) : Multiset String) +
                        ((rangeCallIds primary (p + 1) n : Multiset String) +
                         (rangeCallIds fb (f + 1) n : Multiset String)) :=
                        add_le_add hx hy
                    _ = (rangeCallIds primary (p + 1) n : Multiset String) +
                        ((callIds (okContent (fb f)) : Multiset String) +
                         (rangeCallIds fb (f + 1) n : Multiset String)) :=
                        add_left_comm _ _ _
                    _ = (rangeCallIds primary (p + 1) n : Multiset String) +
                        (rangeCallIds fb f (n + 1) : Multiset String) := by
                        rw [hDcoe]
                    _ ≤ (rangeCallIds primary p (n + 1) : Multiset String) +
                        (rangeCallIds fb f (n + 1) : Multiset String) := by
                        refine add_le_add_right ?_ _
                        rw [← hAcoe]
                        exact self_le_add_left _ _
      · have hx : (callIds (processMsgs tools agent resp.content
            false).emitted : Multiset String) ≤
            (callIds (okContent (primary p)) : Multiset String) := by
          rw [hp]
          exact Multiset.coe_le.2
            (processMsgs_callIds_sublist tools agent resp.content
              false).subperm
        cases ho : (processMsgs tools agent resp.content false).ok with
        | false =>
            simp only [runTurns, hp, ho, Bool.false_eq_true, if_false]
            calc (callIds (processMsgs tools agent resp.content
                  false).emitted : Multiset String)
                ≤ _ := hx
              _ ≤ (rangeCallIds primary p (n + 1) : Multiset String) := by
                  rw [← hAcoe]; exact self_le_add_right _ _
              _ ≤ _ := self_le_add_right _ _
        | true =>
            simp only [runTurns, hp, ho, if_true]
            rw [callIds, List.filterMap_append, ← callIds, ← callIds,
              ← Multiset.coe_add]
            have hy := ih (p + 1) f
            calc (callIds (processMsgs tools agent resp.content
                    false).emitted : Multiset String) +
                  (callIds (runTurns primary fallback tools agent n
                    (p + 1) f).emitted : Multiset String)
                ≤ (callIds (okContent (primary p)) : Multiset String) +
                  ((rangeCallIds primary (p + 1) n : Multiset String) +
                   (fallbackRangeCallIds fallback f n : Multiset String)) :=
                  add_le_add hx hy
              _ = ((callIds (okContent (primary p)) : Multiset String) +
                   (rangeCallIds primary (p + 1) n : Multiset String)) +
                  (fallbackRangeCallIds fallback f n : Multiset String) :=
                  (add_assoc _ _ _).symm
              _ = (rangeCallIds primary p (n + 1) : Multiset String) +
                  (fallbackRangeCallIds fallback f n : Multiset String) := by
                  rw [hAcoe]
              _ ≤ (rangeCallIds primary p (n + 1) : Multiset String) +
                  (fallbackRangeCallIds fallback f (n + 1) :
                    Multiset String) :=
                  add_le_add_left (fallbackRangeCallIds_le_succ fallback n f) _

/-- When the tool-call ids across the primary and fallback responses the
loop can consume are pairwise distinct, the transcript's tool-call ids
are pairwise distinct. -/
theorem transcript_callIds_nodup (primary : Nat → Except Unit LLMResponse)
    (fallback : Option (Nat → Except Unit LLMResponse))
    (tools : List ToolSim) (agent : AgentType) (max_turns : Nat)
    (prompt : Option String)
    (hids : (rangeCallIds primary 0 max_turns ++
        fallbackRangeCallIds fallback 0 max_turns).Nodup) :
    (callIds
      (transcript primary fallback tools agent max_turns prompt)).Nodup := by
  have hle : (callIds (transcript primary fallback tools agent max_turns
      prompt) : Multiset String) ≤
      (rangeCallIds primary 0 max_turns : Multiset String) +
        (fallbackRangeCallIds fallback 0 max_turns : Multiset String) := by
    have h := runTurns_callIds_le primary fallback tools agent max_turns 0 0
    cases prompt with
    | none => simpa [transcript, invoke] using h
    | some s =>
        simpa [transcript, invoke, callIds, List.filterMap_cons, callIdOf?]
          using h
  rw [Multiset.coe_add] at hle
  have hnd : Multiset.Nodup
      ((rangeCallIds primary 0 max_turns ++
        fallbackRangeCallIds fallback 0 max_turns : List String) :
        Multiset String) := Multiset.coe_nodup.2 hids
  exact Multiset.coe_nodup.1 (Multiset.nodup_of_le hle hnd)

/-- From adjacency: a result at position `j` of the list has, when the
virtual predecessor is `prev`, either `j = 0` and `prev` is its call, or
a call with the same id at position `j - 1`. -/
theorem resAdjFrom_imm_pred :
    ∀ (T : List Message) (prev : Option Message),
      resAdjFrom prev T = true →
      ∀ (j : Nat) (hj : j < T.length) (i : String),
        resIdOf? (T.get ⟨j, hj⟩) = some i →
        (j = 0 ∧ ∃ pm, prev = some pm ∧ callIdOf? pm = some i) ∨
        ∃ hj1 : j - 1 < T.length, 0 < j ∧
          callIdOf? (T.get ⟨j - 1, hj1⟩) = some i := by
  intro T
  induction T with
  | nil => intro prev _ j hj; exact absurd hj (by simp)
  | cons m rest ih =>
      intro prev hadj j hj i hres
      simp only [resAdjFrom, Bool.and_eq_true] at hadj
      cases j with
      | zero =>
          left
          refine ⟨rfl, ?_⟩
          have hres0 : resIdOf? m = some i := by simpa using hres
          have hf := hadj.1
          rw [followsMatchingCall, hres0] at hf
          cases prev with
          | none => exact absurd hf (by simp)
          | some pm => exact ⟨pm, rfl, by simpa using hf⟩
      | succ j' =>
          right
          have hj' : j' < rest.length := by
            simpa [Nat.succ_lt_succ_iff] using hj
          have hres' : resIdOf? (rest.get ⟨j', hj'⟩) = some i := by
            simpa using hres
          rcases ih (some m) hadj.2 j' hj' i hres' with
            ⟨hj0, pm, hpm, hcall⟩ | ⟨hj1, hpos, hcall⟩
          · subst hj0
            have hm : pm = m := by
              injection hpm with h
              exact h.symm
            subst hm
            refine ⟨by simp, by omega, ?_⟩
            simpa using hcall
          · rcases Nat.exists_eq_succ_of_ne_zero (Nat.pos_iff_ne_zero.1
              hpos) with ⟨j'', rfl⟩
            refine ⟨by simp; omega, by omega, ?_⟩
            have : (j'' + 1 + 1 - 1) = j'' + 1 := rfl
            simpa using hcall

/-- In a list whose image under a partial projection has no duplicates,
two positions with the same projected value coincide. -/
theorem nodup_filterMap_get_inj (g : Message → Option String) :
    ∀ (T : List Message), (T.filterMap g).Nodup →
      ∀ (k1 k2 : Fin T.length) (i : String),
        g (T.get k1) = some i → g (T.get k2) = some i →
        (k1 : Nat) = (k2 : Nat) := by
  intro T
  induction T with
  | nil => intro _ k1; exact absurd k1.2 (by simp)
  | cons m rest ih =>
      intro hnd k1 k2 i h1 h2
      have htail : (rest.filterMap g).Nodup := by
        rw [List.filterMap_cons] at hnd
        cases hg : g m with
        | none => rwa [hg] at hnd
        | some v =>
            rw [hg] at hnd
            exact (List.nodup_cons.1 hnd).2
      rcases k1 with ⟨k1, hk1⟩
      rcases k2 with ⟨k2, hk2⟩
      cases k1 with
      | zero =>
          cases k2 with
          | zero => rfl
          | succ k2' =>
              exfalso
              have h1' : g m = some i := by simpa using h1
              have hk2' : k2' < rest.length := by
                simpa [Nat.succ_lt_succ_iff] using hk2
              have h2' : g (rest.get ⟨k2', hk2'⟩) = some i := by
                simpa using h2
              rw [List.filterMap_cons, h1'] at hnd
              exact (List.nodup_cons.1 hnd).1
                (List.mem_filterMap.2 ⟨_, List.get_mem rest _ _, h2'⟩)
      | succ k1' =>
          cases k2 with
          | zero =>
              exfalso
              have h2' : g m = some i := by simpa using h2
              have hk1' : k1' < rest.length := by
                simpa [Nat.succ_lt_succ_iff] using hk1
              have h1' : g (rest.get ⟨k1', hk1'⟩) = some i := by
                simpa using h1
              rw [List.filterMap_cons, h2'] at hnd
              exact (List.nodup_cons.1 hnd).1
                (List.mem_filterMap.2 ⟨_, List.get_mem rest _ _, h1'⟩)
          | succ k2' =>
              have hk1' : k1' < rest.length := by
                simpa [Nat.succ_lt_succ_iff] using hk1
              have hk2' : k2' < rest.length := by
                simpa [Nat.succ_lt_succ_iff] using hk2
              have h1' : g (rest.get ⟨k1', hk1'⟩) = some i := by
                simpa using h1
              have h2' : g (rest.get ⟨k2', hk2'⟩) = some i := by
                simpa using h2
              have := ih htail ⟨k1', hk1'⟩ ⟨k2', hk2'⟩ i h1' h2'
              simpa using this

/-- **C8** (confirmed).  In every transcript one invocation produces —
provided the model's responses carry no `ToolUseResult` messages (no
adapter ever emits one) and the provider-issued tool-call ids of the
responses are pairwise distinct — every appended `ToolUseResult` has a
preceding `ToolUse` with the identical `tool_use_id` (in fact the
immediately preceding message), that `ToolUse` is the only one in the
transcript with this id (so the preceding unmatched one is unique), and
no id is answered by two `ToolUseResult` messages. -/
theorem c8_tool_use_result_pairing (primary : Nat → Except Unit LLMResponse)
    (fallback : Option (Nat → Except Unit LLMResponse))
    (tools : List ToolSim) (agent : AgentType) (max_turns : Nat)
    (prompt : Option String)
    (hnores : ∀ k m, m ∈ okContent (primary k) → isRes m = false)
    (hnores_fb : ∀ fb, fallback = some fb →
      ∀ k m, m ∈ okContent (fb k) → isRes m = false)
    (hids : (rangeCallIds primary 0 max_turns ++
        fallbackRangeCallIds fallback 0 max_turns).Nodup) :
    ∀ (j : Fin (transcript primary fallback tools agent max_turns
          prompt).length)
      (i : String),
      resIdOf? ((transcript primary fallback tools agent max_turns
          prompt).get j) = some i →
      (∃ k : Fin (transcript primary fallback tools agent max_turns
            prompt).length,
        (k : Nat) < (j : Nat) ∧
        callIdOf? ((transcript primary fallback tools agent max_turns
            prompt).get k) = some i) ∧
      (∀ k1 k2 : Fin (transcript primary fallback tools agent max_turns
            prompt).length,
        callIdOf? ((transcript primary fallback tools agent max_turns
            prompt).get k1) = some i →
        callIdOf? ((transcript primary fallback tools agent max_turns
            prompt).get k2) = some i →
        (k1 : Nat) = (k2 : Nat)) ∧
      ∀ j2 : Fin (transcript primary fallback tools agent max_turns
            prompt).length,
        resIdOf? ((transcript primary fallback tools agent max_turns
            prompt).get j2) = some i →
        (j2 : Nat) = (j : Nat) := by
  intro j i hres
  have hadj := transcript_resAdj primary fallback tools agent max_turns
    prompt hnores hnores_fb
  have hnd := transcript_callIds_nodup primary fallback tools agent
    max_turns prompt hids
  have himm := resAdjFrom_imm_pred _ none hadj j.1 j.2 i hres
  rcases himm with ⟨_, pm, hpm, _⟩ | ⟨hj1, hpos, hcall⟩
  · exact absurd hpm (by simp)
  · refine ⟨⟨⟨j.1 - 1, hj1⟩, by show j.1 - 1 < j.1; omega, hcall⟩, ?_, ?_⟩
    · intro k1 k2 hk1 hk2
      exact nodup_filterMap_get_inj callIdOf? _ hnd k1 k2 i hk1 hk2
    · intro j2 hres2
      rcases resAdjFrom_imm_pred _ none hadj j2.1 j2.2 i hres2 with
        ⟨_, pm, hpm, _⟩ | ⟨hj2, hpos2, hcall2⟩
      · exact absurd hpm (by simp)
      · have := nodup_filterMap_get_inj callIdOf? _ hnd ⟨j2.1 - 1, hj2⟩
          ⟨j.1 - 1, hj1⟩ i hcall2 hcall
        simp only at this
        omega

/-- Witness for `c8_tool_use_result_pairing`: the oracle answers turn 0
with one call of tool `"t"` (id `id_a`) and turn 1 with a text, no
fallback, a two-turn budget, and no prompt. -/
theorem c8_tool_use_result_pairing_witness :
    ((∀ k m, m ∈ okContent (c8_oracle k) → isRes m = false) ∧
     (∀ fb, (none : Option (Nat → Except Unit LLMResponse)) = some fb →
       ∀ k m, m ∈ okContent (fb k) → isRes m = false) ∧
     (rangeCallIds c8_oracle 0 2 ++
       fallbackRangeCallIds none 0 2).Nodup) ∧
    ∀ (j : Fin (transcript c8_oracle none [c8_tool] .manager 2
          none).length)
      (i : String),
      resIdOf? ((transcript c8_oracle none [c8_tool] .manager 2
          none).get j) = some i →
      (∃ k : Fin (transcript c8_oracle none [c8_tool] .manager 2
            none).length,
        (k : Nat) < (j : Nat) ∧
        callIdOf? ((transcript c8_oracle none [c8_tool] .manager 2
            none).get k) = some i) ∧
      (∀ k1 k2 : Fin (transcript c8_oracle none [c8_tool] .manager 2
            none).length,
        callIdOf? ((transcript c8_oracle none [c8_tool] .manager 2
            none).get k1) = some i →
        callIdOf? ((transcript c8_oracle none [c8_tool] .manager 2
            none).get k2) = some i →
        (k1 : Nat) = (k2 : Nat)) ∧
      ∀ j2 : Fin (transcript c8_oracle none [c8_tool] .manager 2
            none).length,
        resIdOf? ((transcript c8_oracle none [c8_tool] .manager 2
            none).get j2) = some i →
        (j2 : Nat) = (j : Nat) := by
  have hno : ∀ k m, m ∈ okContent (c8_oracle k) → isRes m = false := by
    intro k m hm
    rcases k with _ | k <;>
      simp only [c8_oracle, okContent, if_true, if_false,
        Nat.succ_ne_zero, List.mem_singleton, reduceIte] at hm <;>
      subst hm <;> rfl
  have hfb : ∀ fb, (none : Option (Nat → Except Unit LLMResponse)) =
      some fb → ∀ k m, m ∈ okContent (fb k) → isRes m = false := by
    intro fb h
    exact absurd h (by simp)
  have hids : (rangeCallIds c8_oracle 0 2 ++
      fallbackRangeCallIds none 0 2).Nodup := by decide
  exact ⟨⟨hno, hfb, hids⟩,
    c8_tool_use_result_pairing c8_oracle none [c8_tool] .manager 2 none
      hno hfb hids⟩

end DevTeam
